import Mathlib

/-!
Verification development for the asynchronous job-orchestration layer of a
typed REST API client: the backoff policy and polling helpers
(src/client/helpers/polling.ts), the queued-job poller
(src/client/helpers/queued-jobs.ts) and the dependency-ordered batch
scene-item creation pipeline (src/client/helpers/scenes.ts).

The TypeScript sources are embedded shallowly: pure functions become Lean
functions; the stateful async orchestration becomes explicit state passing
driven by an environment of oracles (one outcome per network call); JS
numbers used as non-negative integer counters and millisecond amounts become
Nat, with Int used where the source lets a value go negative; JS  while
loops become fuel-based structural recursion, where the wrapper supplies
fuel that is provably sufficient (each iteration strictly decreases a
quantity bounded by the fuel), so the embedded function agrees with the
source loop on every input on which the source terminates.
-/

namespace VertexClient

/-! ## Basic API payload shapes (src/index generated models, as used by the helpers) -/

/-- Source of an API error: `source.pointer` (models `ApiError.source`). -/
structure ErrorSource where
  pointer : Option String
deriving DecidableEq

/-- An `ApiError` payload; every field the helpers read. Fields the platform
may omit are optional. -/
structure ApiError where
  id : Option String
  status : Option String
  code : Option String
  title : Option String
  detail : Option String
  source : Option ErrorSource
deriving DecidableEq

/-- A `Failure` payload: a set of `ApiError`, embedded as the list observed by
`[...failure.errors.values()]` iteration order. -/
structure Failure where
  errors : List ApiError
deriving DecidableEq

/-- Attributes of a queued job: `{status ∈ queued | executing | complete | error}`. -/
structure QueuedJobAttributes where
  status : String
deriving DecidableEq

/-- Data of a `QueuedJob`: `{id, type, attributes}`. -/
structure QueuedJobData where
  id : String
  type : String
  attributes : QueuedJobAttributes
deriving DecidableEq

/-- A `QueuedJob` payload: `{data: {id, type, attributes: {status}}}`. -/
structure QueuedJob where
  data : QueuedJobData
deriving DecidableEq

/-! ## Backoff policy (src/client/helpers/polling.ts) -/

/-- A backoff table, source type `Record<number, number | undefined>`: a JS
object mapping attempt-count thresholds to extra delay in milliseconds.
JS object semantics order integer-like keys ascending, so the embedding is an
association list whose keys appear in ascending order; entries whose value is
undefined are omitted (an absent key and a key with undefined value are both
read back as undefined by `backoff[k] ?? 0`). -/
abbrev BackoffTable := List (Nat × Nat)

/-- polling.ts `getBackoffKeys`: `Object.keys(backoff).map(parseInt).reverse()`.
Keys of a JS record with integer-like keys enumerate in ascending order, so
this is the key list reversed into descending order. -/
def getBackoffKeys (backoff : BackoffTable) : List Nat :=
  (backoff.map Prod.fst).reverse

/-- polling.ts `getBackoffForAttempt(attempt, backoff?, backoffKeys?)`:
with a table, find the first key (largest, as keys are descending) strictly
below `attempt` and return its delay; `backoff[foundKey ?? 0] ?? 0`. -/
def getBackoffForAttempt (attempt : Nat) (backoff : Option BackoffTable)
    (backoffKeys : Option (List Nat)) : Nat :=
  match backoff with
  | some b =>
    let keys := backoffKeys.getD (getBackoffKeys b)
    let foundKey := (keys.find? (fun key => decide (attempt > key))).getD 0
    (b.lookup foundKey).getD 0
  | none => 0

/-- The `Polling` configuration shape `{intervalMs, maxAttempts, backoff?}`. -/
structure Polling where
  intervalMs : Nat
  maxAttempts : Nat
  backoff : Option BackoffTable
deriving DecidableEq

/-- polling.ts `getPollingDelay({attempt, polling})`:
`polling.intervalMs + getBackoffForAttempt(attempt, polling.backoff)`. -/
def getPollingDelay (attempt : Nat) (polling : Polling) : Nat :=
  polling.intervalMs + getBackoffForAttempt attempt polling.backoff none

/-- The `while (remainingTimeMs > 0)` loop of polling.ts `getMaxAttempts`.
`remainingTimeMs` is an Int exactly as a JS number goes negative before the
loop exits. Fuel-based: the wrapper passes fuel `maxPollDurationSeconds * 1000 + 1`,
which cannot run out when `intervalMs > 0` since every iteration subtracts at
least 1 from `remainingTimeMs` (on inputs with `intervalMs = 0` and a
zero-delay table the source loop does not terminate). -/
def getMaxAttemptsGo (intervalMs : Nat) (b : BackoffTable) (backoffKeys : List Nat) :
    Nat → Int → Nat → Nat
  | 0, _, attempt => attempt
  | fuel + 1, remainingTimeMs, attempt =>
    if remainingTimeMs > 0 then
      getMaxAttemptsGo intervalMs b backoffKeys fuel
        (remainingTimeMs -
          ((intervalMs : Int) + (getBackoffForAttempt (attempt + 1) (some b) (some backoffKeys) : Int)))
        (attempt + 1)
    else attempt

/-- polling.ts `getMaxAttempts({intervalMs, maxPollDurationSeconds, backoff})`:
with a backoff table, simulate cumulative waits until the duration budget is
exhausted; without a table, `Math.max(1, Math.floor(maxPollDurationSeconds / intervalMs))`
exactly as written in the source (the source divides the duration in seconds
by the interval in milliseconds). -/
def getMaxAttempts (intervalMs : Nat) (maxPollDurationSeconds : Nat)
    (backoff : Option BackoffTable) : Nat :=
  match backoff with
  | some b =>
    let backoffKeys := getBackoffKeys b
    getMaxAttemptsGo intervalMs b backoffKeys (maxPollDurationSeconds * 1000 + 1)
      ((maxPollDurationSeconds : Int) * 1000) 0
  | none => max 1 (maxPollDurationSeconds / intervalMs)

/-- polling.ts `getPollingConfiguration({backoff, intervalMs, maxPollDurationSeconds})`. -/
def getPollingConfiguration (backoff : Option BackoffTable) (intervalMs : Nat)
    (maxPollDurationSeconds : Nat) : Polling :=
  { intervalMs := intervalMs
    maxAttempts := getMaxAttempts intervalMs maxPollDurationSeconds backoff
    backoff := backoff }

/-- polling.ts `DefaultPollIntervalMs`. -/
def DefaultPollIntervalMs : Nat := 500

/-- polling.ts `DefaultPollTimeoutSeconds` (60 minutes). -/
def DefaultPollTimeoutSeconds : Nat := 60 * 60

/-- polling.ts `DefaultBackoffMs`. -/
def DefaultBackoffMs : BackoffTable :=
  [(0, DefaultPollIntervalMs), (1, 500), (10, 2000), (30, 3000), (50, 5000),
   (300, 10000), (1000, 20000)]

/-- polling.ts `DefaultPolling`. -/
def DefaultPolling : Polling :=
  getPollingConfiguration (some DefaultBackoffMs) DefaultPollIntervalMs
    DefaultPollTimeoutSeconds

/-- A backoff table whose delay values decrease across ascending thresholds
(a JS record `{0: 1000, 10: 5}`); used to test monotonicity of
`getBackoffForAttempt` over arbitrary tables. -/
def decreasingBackoffTable : BackoffTable := [(0, 1000), (10, 5)]

/-- The cumulative simulated wait of attempts `1..n` against a table:
each attempt `a` contributes `intervalMs + getBackoffForAttempt a`. -/
def cumulativeWait (intervalMs : Nat) (b : BackoffTable) : Nat → Nat
  | 0 => 0
  | n + 1 => cumulativeWait intervalMs b n + (intervalMs + getBackoffForAttempt (n + 1) (some b) none)

/-! ## Queued-job poller (src/client/helpers/queued-jobs.ts) -/

/-- queued-jobs.ts `ClientErrorId`. -/
def ClientErrorId : String := "node-client-error"

/-- `PollRes<T> = Failure | QueuedJob | T`: the duck-typed union of what a
poll of `getQueuedJob` can hand back. The source discriminates by payload
shape (`isFailure`, `isQueuedJob`); the embedding tags the union and lets the
predicates below re-read the shape checks on the tagged value. -/
inductive PollRes (T : Type) where
  | failure (f : Failure)
  | queuedJob (j : QueuedJob)
  | resource (t : T)
deriving DecidableEq

/-- utils.ts `isApiError`: `defined(status) && defined(code)`. -/
def isApiError (e : ApiError) : Bool :=
  e.status.isSome && e.code.isSome

/-- utils.ts `isFailure` on a `PollRes` value: a payload with a non-empty
`errors` set whose first element passes `isApiError`. -/
def isFailure {T : Type} : PollRes T → Bool
  | .failure f =>
    match f.errors with
    | [] => false
    | e :: _ => isApiError e
  | _ => false

/-- `s.startsWith(p)`. `String.startsWith` is implemented over extern
byte-level primitives whose Lean model does not reduce; the embedding uses
the equivalent character-list prefix test. -/
def strStartsWith (s p : String) : Bool :=
  p.toList.isPrefixOf s.toList

/-- utils.ts `isQueuedJob` on a `PollRes` value:
`defined(data) && defined(data.attributes) && defined(data.type) && data.type.startsWith(queued-)`. -/
def isQueuedJob {T : Type} : PollRes T → Bool
  | .queuedJob j => strStartsWith j.data.type ("queued-")
  | _ => false

/-- queued-jobs.ts `isStatusError`: `job.data.attributes.status === error`. -/
def isStatusError (job : QueuedJob) : Bool :=
  job.data.attributes.status == ("error")

/-- queued-jobs.ts `isQueuedJobError`: `isQueuedJob(obj) && isStatusError(obj)`. -/
def isQueuedJobError {T : Type} : PollRes T → Bool
  | .queuedJob j => isQueuedJob (PollRes.queuedJob j : PollRes T) && isStatusError j
  | _ => false

/-- queued-jobs.ts `validJob`: `isQueuedJob(r) && !isStatusError(r)`. -/
def validJob {T : Type} : PollRes T → Bool
  | .queuedJob j => isQueuedJob (PollRes.queuedJob j : PollRes T) && !(isStatusError j)
  | _ => false

/-- queued-jobs.ts `isClientError`:
`isFailure(res) && head([...res.errors.values()])?.id === ClientErrorId`. -/
def isClientError {T : Type} (res : PollRes T) : Bool :=
  isFailure res &&
    (match res with
     | .failure f =>
       match f.errors with
       | [] => false
       | e :: _ => e.id == some ClientErrorId
     | _ => false)

/-- queued-jobs.ts `isPollError`: `isQueuedJobError(r) || isFailure(r)`. -/
def isPollError {T : Type} (r : PollRes T) : Bool :=
  isQueuedJobError r || isFailure r

/-- queued-jobs.ts `allowed404`: `allow404 && status === 404`. -/
def allowed404 (allow404 : Bool) (status : Nat) : Bool :=
  allow404 && status == 404

/-- The shape `{res, status}` returned by the inner `poll` closure
(queued-jobs.ts `PollJobRes<T>`). -/
structure PollJobRes (T : Type) where
  res : PollRes T
  status : Nat
deriving DecidableEq

/-- What one call of the caller-supplied `getQueuedJob` does, as observed by
the inner `poll` closure of `pollQueuedJob`: it either resolves with an HTTP
status and a duck-typed body, or it throws. A thrown error either carries a
`vertexError` with a `Failure` payload and HTTP status, or it is any other
error (network failure, connect-timeout cancellation) with a message. -/
inductive FetchOutcome (T : Type) where
  | success (status : Nat) (res : PollRes T)
  | vertexErr (status : Nat) (res : Failure)
  | otherErr (message : String)
deriving DecidableEq

/-- The inner `poll` closure of queued-jobs.ts `pollQueuedJob`: a resolved
fetch yields `{status: r.status, res: r.data}`; a thrown `VertexError` with a
response yields that status and `Failure`; any other throw synthesizes the
503 client-error `Failure` with the sentinel `ClientErrorId`. -/
def pollAttempt {T : Type} : FetchOutcome T → PollJobRes T
  | .success status res => { res := res, status := status }
  | .vertexErr status res => { res := .failure res, status := status }
  | .otherErr message =>
    { res := .failure
        { errors := [{ id := some ClientErrorId, status := some ("503"),
                       code := some ("ServiceUnavailable"),
                       title := some ("Node client caught error in pollQueuedJob."),
                       detail := some message, source := none }] }
      status := 503 }

/-- The `while` loop of `pollQueuedJob`: keep polling while the result is an
allowed 404, a valid still-queued job, or a retryable client error, and
`attempts <= maxAttempts`. `waits` is the ghost trace of the milliseconds
passed to each `await delay(intervalMs)` call, in order. Fuel-based: the
wrapper passes fuel `maxAttempts`, which cannot run out because the loop
guard requires `attempts <= maxAttempts` and `attempts` starts at 1 and grows
by 1 each iteration. -/
def pollQueuedJobGo {T : Type} (fetch : Nat → FetchOutcome T) (allow404 : Bool)
    (intervalMs maxAttempts : Nat) :
    Nat → Nat → PollJobRes T → List Nat → PollJobRes T × Nat × List Nat
  | 0, attempts, pollRes, waits => (pollRes, attempts, waits)
  | fuel + 1, attempts, pollRes, waits =>
    if (allowed404 allow404 pollRes.status || validJob pollRes.res ||
          isClientError pollRes.res) && decide (attempts ≤ maxAttempts) then
      pollQueuedJobGo fetch allow404 intervalMs maxAttempts fuel (attempts + 1)
        (pollAttempt (fetch (attempts + 1))) (waits ++ [intervalMs])
    else (pollRes, attempts, waits)

/-- queued-jobs.ts `PollQueuedJobRes<T>`, extended with the ghost `waits`
trace of the delays performed between attempts. -/
structure PollQueuedJobRes (T : Type) where
  res : PollRes T
  status : Nat
  attempts : Nat
  id : String
  waits : List Nat
deriving DecidableEq

/-- queued-jobs.ts `pollQueuedJob`: attempt 1 polls immediately, then the
loop waits `delay(intervalMs)` and re-polls while the outcome is still
pending and the attempt budget is not exceeded. The caller-supplied
`getQueuedJob` is the oracle `fetch`, indexed by attempt number. The
`polling` configuration is destructured to `{intervalMs, maxAttempts}`
exactly as in the source (its `backoff` field is not consulted). -/
def pollQueuedJob {T : Type} (fetch : Nat → FetchOutcome T) (id : String)
    (allow404 : Bool) (polling : Polling) : PollQueuedJobRes T :=
  let first := pollAttempt (fetch 1)
  let out := pollQueuedJobGo fetch allow404 polling.intervalMs polling.maxAttempts
    polling.maxAttempts 1 first []
  { res := out.1.res, status := out.1.status, attempts := out.2.1, id := id,
    waits := out.2.2 }

/-! ## Scene-item request model (generated models, as read by scenes.ts) -/

/-- Generated `RelationshipData`: `{id, type}`. -/
structure RelationshipData where
  id : String
  type : String
deriving DecidableEq

/-- A relationship object `{data: RelationshipData}` (parent or source of a
scene-item request). -/
structure Relationship where
  data : RelationshipData
deriving DecidableEq

/-- The `source` attribute of a scene-item request, as read by the retry
code: `{suppliedPartId?, suppliedRevisionId?}`. -/
structure SceneItemSource where
  suppliedPartId : Option String
  suppliedRevisionId : Option String
deriving DecidableEq

/-- Generated `MetadataValue`: `{type, value}`; `type` holds the generated
`MetadataValueTypeEnum.String` tag, embedded as the string lowercase-string. -/
structure MetadataValue where
  type : String
  value : String
deriving DecidableEq

/-- Scene-item request attributes, every field the pipeline reads. The
`metadata` JS object is an association list with JS object assignment
semantics (`mapSet` below); a key explicitly assigned `undefined` holds
`none`. -/
structure CreateSceneItemRequestDataAttributes where
  suppliedId : Option String
  parent : Option String
  ordinal : Option Nat
  source : Option SceneItemSource
  metadata : List (String × Option MetadataValue)
deriving DecidableEq

/-- Scene-item request relationships: `{parent?, source?}`. -/
structure CreateSceneItemRequestDataRelationships where
  parent : Option Relationship
  source : Option Relationship
deriving DecidableEq

/-- `CreateSceneItemRequestData`: `{type, attributes, relationships}`. -/
structure CreateSceneItemRequestData where
  type : String
  attributes : CreateSceneItemRequestDataAttributes
  relationships : CreateSceneItemRequestDataRelationships
deriving DecidableEq

/-- `CreateSceneItemRequest`: `{data}`. -/
structure CreateSceneItemRequest where
  data : CreateSceneItemRequestData
deriving DecidableEq

/-- One entry of a resolved batch: `RelationshipData | ApiError`, duck-typed
in the source, tagged here. -/
inductive BatchResult where
  | rel (r : RelationshipData)
  | err (e : ApiError)
deriving DecidableEq

/-- utils.ts `isApiError` applied to a batch-operation result
(`defined(status) && defined(code)`; a `RelationshipData` has neither field). -/
def isApiErrorResult : BatchResult → Bool
  | .err e => isApiError e
  | .rel _ => false

/-- utils.ts `isSceneItemRelationship`:
`defined(id) && defined(type) && type === scene-item` (an `ApiError` has no
`type` field). -/
def isSceneItemRelationship : BatchResult → Bool
  | .rel r => r.type == ("scene-item")
  | .err _ => false

/-- A resolved `Batch`: the `vertexvis/batch:results` list. -/
structure Batch where
  results : List BatchResult
deriving DecidableEq

/-- queued-jobs.ts `isBatch`: `defined(b) && defined(b[batch:results])`;
only the resource variant of the poll union carries that field. -/
def isBatch : PollRes Batch → Bool
  | .resource _ => true
  | _ => false

/-- Generated `BatchOperation.ref`: `{type, id}`; `type` holds the generated
`BatchOperationRefTypeEnum.Scene` tag, embedded as the string scene. -/
structure BatchOperationRef where
  type : String
  id : String
deriving DecidableEq

/-- Generated `BatchOperation`: `{data, op, ref}`; `op` holds the generated
`BatchOperationOpEnum.Add` tag, embedded as the string add. -/
structure BatchOperation where
  data : CreateSceneItemRequestData
  op : String
  ref : BatchOperationRef
deriving DecidableEq

/-- The `Failure | QueuedJob` union stored in `QueuedBatchOps.res`. -/
inductive FailureOrJob where
  | failure (f : Failure)
  | queuedJob (j : QueuedJob)
deriving DecidableEq

/-- scenes.ts `QueuedBatchOps`: `{ops, res?}`. -/
structure QueuedBatchOps where
  ops : List BatchOperation
  res : Option FailureOrJob
deriving DecidableEq

/-- utils.ts `isQueuedJob` applied to a `QueuedBatchOps.res` value (the
partition predicate of `createSceneItemBatch`). -/
def isQueuedJobOnRes : Option FailureOrJob → Bool
  | some (.queuedJob j) => strStartsWith j.data.type ("queued-")
  | _ => false

/-- The union that ends up in `SceneItemError.res`: declared `ApiError` in
the source, but the per-operation error loop also stores the `Failure` or
error-status `QueuedJob` of a failed batch there through a non-null
assertion, and stores nothing when a thrown `VertexError` carried no
response. -/
inductive ItemErrorRes where
  | api (e : ApiError)
  | failure (f : Failure)
  | queuedJob (j : QueuedJob)
deriving DecidableEq

/-- scenes.ts `SceneItemError`: `{req, res?, placeholderItem?}`. -/
structure SceneItemError where
  req : CreateSceneItemRequestData
  res : Option ItemErrorRes
  placeholderItem : Option RelationshipData
deriving DecidableEq

/-- scenes.ts `SceneItemResult`: `{req, res}`. -/
structure SceneItemResult where
  req : CreateSceneItemRequestData
  res : BatchResult
deriving DecidableEq

/-- Scene attributes, as read by the commit workflow: `{state}`. -/
structure SceneDataAttributes where
  state : String
deriving DecidableEq

/-- Scene data: `{id, attributes}`. -/
structure SceneData where
  id : String
  attributes : SceneDataAttributes
deriving DecidableEq

/-- A `Scene` payload: `{data}`. -/
structure Scene where
  data : SceneData
deriving DecidableEq

/-! ## part_023 scene-item error helpers -/

/-- `SceneItemErrorCode.NotFound`. -/
def SceneItemErrorCodeNotFound : String := "NotFound"

/-- `SceneItemErrorSourcePointer.Parent`. -/
def SceneItemErrorSourcePointerParent : String := "/body/data/attributes/parent"

/-- `SceneItemErrorSourcePointer.SourcePart`. -/
def SceneItemErrorSourcePointerSourcePart : String := "/body/data/relationships/source/data"

/-- `SceneItemSystemMetadata.IsMissingGeometry`. -/
def SceneItemSystemMetadataIsMissingGeometry : String := "VERTEX_IS_MISSING_GEOMETRY"

/-- `SceneItemSystemMetadata.MissingGeometrySetId`. -/
def SceneItemSystemMetadataMissingGeometrySetId : String := "VERTEX_MISSING_GEOMETRY_SET_ID"

/-- `SceneItemSystemMetadata.MissingPartRevisionId`. -/
def SceneItemSystemMetadataMissingPartRevisionId : String := "VERTEX_MISSING_PART_REVISION_ID"

/-- `SceneItemSystemMetadata.MissingSuppliedPartId`. -/
def SceneItemSystemMetadataMissingSuppliedPartId : String := "VERTEX_MISSING_SUPPLIED_PART_ID"

/-- `SceneItemSystemMetadata.MissingSuppliedPartRevisionId`. -/
def SceneItemSystemMetadataMissingSuppliedPartRevisionId : String := "VERTEX_MISSING_SUPPLIED_PART_REVISION_ID"

/-- part_023 `isPartNotFoundError`: defined, `isApiError`, code `NotFound`,
source defined, and source pointer is the source-part pointer. The argument
is the duck-typed `SceneItemError.res` union; only the `ApiError` variant can
pass `isApiError`. -/
def isPartNotFoundError : Option ItemErrorRes → Bool
  | some (.api a) =>
    isApiError a && a.code == some SceneItemErrorCodeNotFound && a.source.isSome &&
      ((a.source.map ErrorSource.pointer).getD none == some SceneItemErrorSourcePointerSourcePart)
  | _ => false

/-- part_023 `isParentNotFoundError`: same checks with the parent pointer. -/
def isParentNotFoundError : Option ItemErrorRes → Bool
  | some (.api a) =>
    isApiError a && a.code == some SceneItemErrorCodeNotFound && a.source.isSome &&
      ((a.source.map ErrorSource.pointer).getD none == some SceneItemErrorSourcePointerParent)
  | _ => false

/-! ## utils.ts helpers used by the pipeline -/

/-- utils.ts `Partitions<T>`. -/
structure Partitions (α : Type) where
  a : List α
  b : List α
deriving DecidableEq

/-- utils.ts `partition`: a reduce pushing each element onto `a` or `b`
according to the predicate. -/
def partition {α : Type} (is : List α) (isA : α → Bool) : Partitions α :=
  is.foldl (fun p i => if isA i then ⟨p.a ++ [i], p.b⟩ else ⟨p.a, p.b ++ [i]⟩) ⟨[], []⟩

/-- The loop behind utils.ts `arrayChunked`: successive chunks of at most
`chunkSize` elements. Fuel-based; the wrapper passes the list length, which
suffices for every `chunkSize ≥ 1` (the only way the source is called). -/
def arrayChunkedGo {α : Type} (chunkSize : Nat) : Nat → List α → List (List α)
  | _, [] => []
  | 0, _ :: _ => []
  | fuel + 1, x :: xs => (x :: xs).take chunkSize :: arrayChunkedGo chunkSize fuel ((x :: xs).drop chunkSize)

/-- utils.ts `arrayChunked`: split a list into chunks of `chunkSize`
(the JS reduce groups element `idx` into chunk `floor(idx / chunkSize)`,
which for `chunkSize ≥ 1` is exactly successive chunks in order). -/
def arrayChunked {α : Type} (a : List α) (chunkSize : Nat) : List (List α) :=
  arrayChunkedGo chunkSize a.length a

/-! ## JS Map / object embedding -/

/-- JS `Map.get` (also object property read) over an association list in
insertion order. -/
def mapGet {β : Type} : List (String × β) → String → Option β
  | [], _ => none
  | (k', v) :: rest, k => if k' = k then some v else mapGet rest k

/-- JS `Map.set` (also object property assignment): overwrite in place if
the key exists, else append. -/
def mapSet {β : Type} : List (String × β) → String → β → List (String × β)
  | [], k, v => [(k, v)]
  | (k', v') :: rest, k, v =>
    if k' = k then (k, v) :: rest else (k', v') :: mapSet rest k v

/-- JS `Map.delete`. -/
def mapDelete {β : Type} (m : List (String × β)) (k : String) : List (String × β) :=
  m.filter (fun p => !(p.1 == k))

/-! ## Scene-item pipeline, pure phases (scenes.ts `createSceneAndSceneItems`) -/

/-- The parent key of a request:
`req.data.attributes.parent ?? req.data.relationships.parent?.data.id ?? empty`. -/
def reqParentKey (req : CreateSceneItemRequest) : String :=
  match req.data.attributes.parent with
  | some p => p
  | none =>
    match req.data.relationships.parent with
    | some rel => rel.data.id
    | none => ""

/-- The in-place mutation `req.data.attributes.ordinal = siblings?.length`,
as a functional update. -/
def setOrdinal (req : CreateSceneItemRequest) (n : Nat) : CreateSceneItemRequest :=
  { data := { req.data with
      attributes := { req.data.attributes with ordinal := some n } } }

/-- The map of sibling lists keyed by parent key. -/
abbrev ReqMap := List (String × List CreateSceneItemRequest)

/-- The `createSceneItemReqs.forEach` of scenes.ts (lines 203-218): build the
parent map and assign ordinals based on request order. Returns the request
list with ordinals assigned (the source mutates the shared request objects)
together with the final parent map, whose entries hold the same assigned
requests. -/
def processReqs : List CreateSceneItemRequest → ReqMap →
    List CreateSceneItemRequest × ReqMap
  | [], m => ([], m)
  | req :: rest, m =>
    let reqParent := reqParentKey req
    let siblings := (mapGet m reqParent).getD []
    let req' := if req.data.attributes.ordinal = none then setOrdinal req siblings.length else req
    let out := processReqs rest (mapSet m reqParent (siblings ++ [req']))
    (req' :: out.1, out.2)

/-- The `nextChildren.flatMap` body of the depth-sorting loop: for each
request of the current layer whose `suppliedId` is truthy (defined and
non-empty) and present in the map, pull that sibling list out of the map
(deleting the key) and append it; the map mutation threads left to right. -/
def childStep : List CreateSceneItemRequest → ReqMap →
    List CreateSceneItemRequest × ReqMap
  | [], m => ([], m)
  | req :: rest, m =>
    match req.data.attributes.suppliedId with
    | some s =>
      if !(s == "") && (mapGet m s).isSome then
        let children := (mapGet m s).getD []
        let out := childStep rest (mapDelete m s)
        (children ++ out.1, out.2)
      else childStep rest m
    | none => childStep rest m

/-- The `while (nextChildren.length)` loop of scenes.ts (lines 225-240):
push the current layer and pull the next one out of the map. Returns the
depth-sorted layers and the remaining map (whose leftover entries are the
requests with unresolvable parents). Fuel-based; the wrapper passes
`m.length + 2`, which suffices because every continuing iteration after the
first deletes at least one key from the map. -/
def depthSortGo : Nat → List CreateSceneItemRequest → ReqMap →
    List (List CreateSceneItemRequest) × ReqMap
  | 0, _, m => ([], m)
  | fuel + 1, nextChildren, m =>
    if nextChildren.isEmpty then ([], m)
    else
      let step := childStep nextChildren m
      let rest := depthSortGo fuel step.1 step.2
      (nextChildren :: rest.1, rest.2)

/-- Layers and leftover map of the depth sort, starting from the root layer
`reqMap.get(empty)` with the empty key deleted. -/
def depthSortedItems (m0 : ReqMap) : List (List CreateSceneItemRequest) × ReqMap :=
  let nextChildren := (mapGet m0 "").getD []
  let m1 := mapDelete m0 ""
  depthSortGo (m1.length + 2) nextChildren m1

/-- The immediate `NotFound` item error reported for a request whose declared
parent never appears in the request set (scenes.ts lines 248-260). -/
def invalidParentError (childItem : CreateSceneItemRequest) : SceneItemError :=
  { req := childItem.data
    res := some (.api
      { id := none, status := some ("404"), code := some ("NotFound"),
        title := some ("The requested resource was not found."),
        detail := none,
        source := some { pointer := some SceneItemErrorSourcePointerParent } })
    placeholderItem := none }

/-- scenes.ts `toMetadataOrUndefined(value, condition)`. -/
def toMetadataOrUndefined (value : Option String) (condition : Bool) :
    Option MetadataValue :=
  if condition && value.isSome then some { type := ("string"), value := value.getD ("") }
  else none

/-- Whether the request relationship source has the given type
(`item.relationships.source?.data.type === t`). -/
def sourceRelTypeIs (item : CreateSceneItemRequestData) (t : String) : Bool :=
  match item.relationships.source with
  | some rel => rel.data.type == t
  | none => false

/-- The placeholder retry request synthesized for a part-not-found item error
(scenes.ts lines 306-343): the original attributes and relationships with the
source stripped from both, and system metadata flags recording the missing
source merged over the original metadata. -/
def placeholderRequest (item : CreateSceneItemRequestData) : CreateSceneItemRequest :=
  let m1 := mapSet item.attributes.metadata SceneItemSystemMetadataIsMissingGeometry
    (toMetadataOrUndefined (some ("1")) true)
  let m2 := mapSet m1 SceneItemSystemMetadataMissingGeometrySetId
    (toMetadataOrUndefined (item.relationships.source.map fun rel => rel.data.id)
      (sourceRelTypeIs item ("geometry-set")))
  let m3 := mapSet m2 SceneItemSystemMetadataMissingPartRevisionId
    (toMetadataOrUndefined (item.relationships.source.map fun rel => rel.data.id)
      (sourceRelTypeIs item ("part-revision")))
  let m4 := mapSet m3 SceneItemSystemMetadataMissingSuppliedPartId
    (toMetadataOrUndefined (item.attributes.source.bind SceneItemSource.suppliedPartId) true)
  let m5 := mapSet m4 SceneItemSystemMetadataMissingSuppliedPartRevisionId
    (toMetadataOrUndefined (item.attributes.source.bind SceneItemSource.suppliedRevisionId) true)
  { data :=
    { type := ("scene-item")
      attributes := { item.attributes with metadata := m5, source := none }
      relationships := { item.relationships with source := none } } }

/-! ## Scene-item pipeline, effectful phases

The network is abstracted as an environment of oracles: one outcome per
`createBatch` call (indexed by a submission counter threaded through the
run) and one poll outcome per accepted batch (indexed by a poll counter);
the scene-commit calls are abstracted the same way. Thrown JS exceptions
propagate as a `halted` flag: once set, nothing further runs and the overall
call resolves to no result. The `events` list is the ghost trace of calls
made, in order; batch submissions are tagged with the depth of the layer
being processed and whether they belong to a placeholder-retry batch. -/

/-- What one `client.batches.createBatch` call does: resolve with a
duck-typed `Failure | QueuedJob` body, throw a `VertexError` carrying a
`Failure` response, or throw any other error. -/
inductive SubmitOutcome where
  | queuedJob (j : QueuedJob)
  | failure (f : Failure)
  | vertexThrow (f : Failure)
  | otherThrow
deriving DecidableEq

/-- The environment of oracles for one pipeline execution. -/
structure Env where
  createdScene : Scene
  submit : Nat → SubmitOutcome
  pollBatch : Nat → PollRes Batch
  sceneReady : Option Scene
  fittedScene : Scene

/-- The `try/catch` around `createBatch` in `createSceneItems`:
a resolved call stores its body; a thrown `VertexError` is recovered to its
`Failure` response unless `failFast`; anything else rethrows (`none`). -/
def interpretSubmit (failFast : Bool) : SubmitOutcome → Option (Option FailureOrJob)
  | .queuedJob j => some (some (.queuedJob j))
  | .failure f => some (some (.failure f))
  | .vertexThrow f => if failFast then none else some (some (.failure f))
  | .otherThrow => none

/-- The batch operations built from the requests:
`{data: req.data, op: Add, ref: {type: Scene, id: sceneId}}`. -/
def sceneItemOps (sceneId : String) (reqs : List CreateSceneItemRequest) :
    List BatchOperation :=
  reqs.map fun req =>
    { data := req.data, op := ("add"), ref := { type := ("scene"), id := sceneId } }

/-- Result of the embedded `createSceneItems`: the chunks submitted (every
chunk is submitted even when some chunk task throws, because the limiter
runs all queued tasks and only the awaited `Promise.all` rejects), the
`QueuedBatchOps` of the non-throwing chunks, the chunk count and whether the
awaited `Promise.all` rejected. -/
structure CreateSceneItemsOut where
  submitted : List (List BatchOperation)
  queuedBatchOps : List QueuedBatchOps
  chunks : Nat
  threw : Bool
deriving DecidableEq

/-- The submissions of the chunk list, one `createBatch` call per chunk,
consuming consecutive oracle indices. -/
def submitChunks (env : Env) (failFast : Bool) :
    List (List BatchOperation) → Nat →
      List (List BatchOperation × Option (Option FailureOrJob))
  | [], _ => []
  | c :: rest, n =>
    (c, interpretSubmit failFast (env.submit n)) :: submitChunks env failFast rest (n + 1)

/-- scenes.ts `createSceneItems`: chunk the operations into batches of at
most 500 and submit each one, recovering thrown `VertexError`s to `Failure`
results unless `failFast`. -/
def createSceneItems (env : Env) (failFast : Bool) (sceneId : String)
    (createSceneItemReqs : List CreateSceneItemRequest) (nSub : Nat) :
    CreateSceneItemsOut :=
  let opChunks := arrayChunked (sceneItemOps sceneId createSceneItemReqs) 500
  let results := submitChunks env failFast opChunks nSub
  { submitted := opChunks
    queuedBatchOps := results.filterMap fun p =>
      p.2.map fun r => ({ ops := p.1, res := r } : QueuedBatchOps)
    chunks := opChunks.length
    threw := results.any fun p => p.2.isNone }

/-- The polls of the accepted batches, one `pollQueuedJob` outcome per
batch, consuming consecutive oracle indices. -/
def pollJobs (env : Env) : List QueuedBatchOps → Nat → List (PollRes Batch)
  | [], _ => []
  | _ :: rest, n => env.pollBatch n :: pollJobs env rest (n + 1)

/-- The cast `res as QueuedJob | Failure` performed when a poll error is
pushed onto the error list (the `resource` variant never reaches it, being
guarded by `isPollError`). -/
def pollResToFailureOrJob : PollRes Batch → FailureOrJob
  | .failure f => .failure f
  | .queuedJob j => .queuedJob j
  | .resource _ => .failure { errors := [] }

/-- The view of a `QueuedBatchOps.res` value stored into `SceneItemError.res`
through the non-null assertion of the per-operation error loop. -/
def itemErrorResOfRes : FailureOrJob → ItemErrorRes
  | .failure f => .failure f
  | .queuedJob j => .queuedJob j

/-- The `undefined` request data read through `batchOps[i].ops[j].data` when
a resolved batch reports more results than the chunk had operations. -/
def dummyReqData : CreateSceneItemRequestData :=
  { type := ("")
    attributes := { suppliedId := none, parent := none, ordinal := none,
                    source := none, metadata := [] }
    relationships := { parent := none, source := none } }

/-- Result of the embedded `createSceneItemBatch`, with the submission trace
and the threaded counters. -/
structure CreateSceneItemBatchOut where
  batchOps : List QueuedBatchOps
  batchErrors : List QueuedBatchOps
  itemErrors : List SceneItemError
  itemResults : List SceneItemResult
  submitted : List (List BatchOperation)
  nSub : Nat
  nPoll : Nat
  threw : Bool
deriving DecidableEq

/-- scenes.ts `createSceneItemBatch`: submit the chunks, partition accepted
jobs from immediate rejections, return early when nothing succeeded, poll
every accepted batch (throwing on a poll error when `failFast`, collecting
it otherwise), flatten resolved batches into per-operation results, and turn
`ApiError` results plus the per-operation fan-out of failed batches into
item errors. -/
def createSceneItemBatch (env : Env) (failFast : Bool) (sceneId : String)
    (createItemReqs : List CreateSceneItemRequest) (nSub nPoll : Nat) :
    CreateSceneItemBatchOut :=
  let createRes := createSceneItems env failFast sceneId createItemReqs nSub
  let nSub' := nSub + createRes.chunks
  if createRes.threw then
    { batchOps := [], batchErrors := [], itemErrors := [], itemResults := [],
      submitted := createRes.submitted, nSub := nSub', nPoll := nPoll, threw := true }
  else
    let part := partition createRes.queuedBatchOps fun i => isQueuedJobOnRes i.res
    let batchOps := part.a
    let errors := part.b
    let batchErrors := errors
    if batchOps.length == 0 || errors.length == createRes.chunks then
      { batchOps := batchOps, batchErrors := batchErrors, itemErrors := [],
        itemResults := [], submitted := createRes.submitted, nSub := nSub',
        nPoll := nPoll, threw := false }
    else
      let polls := pollJobs env batchOps nPoll
      let pairs := batchOps.zip polls
      let pollErrors := pairs.filterMap fun p =>
        if isPollError p.2 then
          some ({ ops := p.1.ops, res := some (pollResToFailureOrJob p.2) } : QueuedBatchOps)
        else none
      if failFast && !pollErrors.isEmpty then
        { batchOps := batchOps, batchErrors := batchErrors, itemErrors := [],
          itemResults := [], submitted := createRes.submitted, nSub := nSub',
          nPoll := nPoll + batchOps.length, threw := true }
      else
        let errors2 := errors ++ pollErrors
        let itemResults := pairs.flatMap fun p =>
          match p.2 with
          | .resource b => b.results.mapIdx fun j r =>
              ({ req := ((p.1.ops.get? j).map BatchOperation.data).getD dummyReqData,
                 res := r } : SceneItemResult)
          | _ => []
        let itemErrors1 : List SceneItemError := itemResults.filterMap fun ri =>
          match ri.res with
          | .err e =>
            if isApiError e then
              some { req := ri.req, res := some (.api e), placeholderItem := none }
            else none
          | .rel _ => none
        let itemErrors2 : List SceneItemError := errors2.flatMap fun err =>
          err.ops.map fun op =>
            { req := op.data, res := err.res.map itemErrorResOfRes, placeholderItem := none }
        { batchOps := batchOps, batchErrors := batchErrors,
          itemErrors := itemErrors1 ++ itemErrors2, itemResults := itemResults,
          submitted := createRes.submitted, nSub := nSub',
          nPoll := nPoll + batchOps.length, threw := false }

/-- The `placeholderItemResults.forEach` attach loop: walk the item errors of
the layer; part-not-found entries (the ones that generated retries, by
filtered position `i`) receive the placeholder reference when the matching
retry result is a scene-item relationship. -/
def attachPlaceholdersGo : List SceneItemError → List SceneItemResult → Nat →
    List SceneItemError
  | [], _, _ => []
  | e :: rest, results, i =>
    if isPartNotFoundError e.res then
      let e' :=
        match results.get? i with
        | some ri =>
          if isSceneItemRelationship ri.res then
            match ri.res with
            | .rel rd => { e with placeholderItem := some rd }
            | .err _ => e
          else e
        | none => e
      e' :: attachPlaceholdersGo rest results (i + 1)
    else e :: attachPlaceholdersGo rest results i

/-- Attach placeholder references to the item errors of a layer. -/
def attachPlaceholders (errs : List SceneItemError) (results : List SceneItemResult) :
    List SceneItemError :=
  attachPlaceholdersGo errs results 0

/-- One entry of the ghost call trace of a pipeline run. -/
inductive Ev where
  | batchSubmit (depth : Nat) (retry : Bool) (ops : List BatchOperation)
  | commitScene
  | pollSceneReady
  | fitCamera
deriving DecidableEq

/-- The mutable state of the depth loop of `createSceneAndSceneItems`,
plus the threaded call counters, the ghost event trace and the
thrown-exception flag. -/
structure LoopState where
  nSub : Nat
  nPoll : Nat
  events : List Ev
  resultQueuedOps : List QueuedBatchOps
  resultBatchErrors : List QueuedBatchOps
  resultItemErrors : List SceneItemError
  createFailed : Bool
  halted : Bool
deriving DecidableEq

/-- One iteration of the depth loop (scenes.ts lines 263-372): run the
layer batch, accumulate accepted ops and batch errors, and on item errors
either break (`failFast`) or synthesize placeholder retries for the
part-not-found ones, submit them at the same depth, and attach the resulting
placeholder references to the item errors. A set `halted` or `createFailed`
flag skips the iteration (the loop is over / broken out of). -/
def layerStep (env : Env) (failFast : Bool) (depth : Nat)
    (layer : List CreateSceneItemRequest) (s : LoopState) : LoopState :=
  if s.halted || s.createFailed then s
  else
    let b := createSceneItemBatch env failFast env.createdScene.data.id layer s.nSub s.nPoll
    let sEv := { s with
      nSub := b.nSub
      nPoll := b.nPoll
      events := s.events ++ b.submitted.map (Ev.batchSubmit depth false) }
    if b.threw then { sEv with halted := true }
    else
      let s1 := { sEv with
        resultQueuedOps := sEv.resultQueuedOps ++ b.batchOps
        resultBatchErrors := sEv.resultBatchErrors ++ b.batchErrors }
      if b.itemErrors.isEmpty then s1
      else
        let s1e := { s1 with resultItemErrors := s1.resultItemErrors ++ b.itemErrors }
        if failFast then { s1e with createFailed := true }
        else
          let retryErrors := b.itemErrors.filter fun v => isPartNotFoundError v.res
          let retries := retryErrors.map fun itemError => placeholderRequest itemError.req
          if retries.isEmpty then s1e
          else
            let rb := createSceneItemBatch env failFast env.createdScene.data.id retries
              s1e.nSub s1e.nPoll
            let s2 := { s1e with
              nSub := rb.nSub
              nPoll := rb.nPoll
              events := s1e.events ++ rb.submitted.map (Ev.batchSubmit depth true) }
            if rb.threw then { s2 with halted := true }
            else
              { s2 with resultItemErrors :=
                  s1.resultItemErrors ++ attachPlaceholders b.itemErrors rb.itemResults }

/-- The depth loop: strictly sequential over the depth-sorted layers. -/
def runLayers (env : Env) (failFast : Bool) :
    List (List CreateSceneItemRequest) → Nat → LoopState → LoopState
  | [], _, s => s
  | layer :: rest, depth, s =>
    runLayers env failFast rest (depth + 1) (layerStep env failFast depth layer s)

/-- The pure set-up phase of `createSceneAndSceneItems`: assign ordinals and
build the parent map, depth-sort the layers, and report each request whose
declared parent never appears as an immediate `NotFound` item error. -/
def pipelineSetup (createSceneItemReqs : List CreateSceneItemRequest) :
    List (List CreateSceneItemRequest) × List SceneItemError :=
  let pr := processReqs createSceneItemReqs []
  let ds := depthSortedItems pr.2
  (ds.1, ds.2.flatMap fun p => p.2.map invalidParentError)

/-- The loop state after processing every layer. -/
def pipelineFinalState (env : Env) (failFast : Bool)
    (createSceneItemReqs : List CreateSceneItemRequest) : LoopState :=
  let setup := pipelineSetup createSceneItemReqs
  runLayers env failFast setup.1 0
    { nSub := 0, nPoll := 0, events := [], resultQueuedOps := [],
      resultBatchErrors := [], resultItemErrors := setup.2,
      createFailed := false, halted := false }

/-- scenes.ts `CreateSceneAndSceneItemsRes`. -/
structure CreateSceneAndSceneItemsRes where
  errors : List QueuedBatchOps
  queued : List QueuedBatchOps
  scene : Option Scene
  sceneItemErrors : List SceneItemError
deriving DecidableEq

/-- A pipeline run: the ghost call trace and the resolved result (`none`
when the overall call rejected with a thrown error). -/
structure PipelineRun where
  events : List Ev
  result : Option CreateSceneAndSceneItemsRes
deriving DecidableEq

/-- scenes.ts `createSceneAndSceneItems`: create the scene, process the
layers, and unless creation failed, transition the scene to commit, poll it
until ready (a timeout there throws) and fit the camera; return the
aggregated errors, item errors, optionally the queued ops, and the scene
(undefined when creation failed). -/
def createSceneAndSceneItems (env : Env)
    (createSceneItemReqs : List CreateSceneItemRequest)
    (failFast returnQueued : Bool) : PipelineRun :=
  let sF := pipelineFinalState env failFast createSceneItemReqs
  if sF.halted then { events := sF.events, result := none }
  else if sF.createFailed then
    { events := sF.events
      result := some
        { errors := sF.resultBatchErrors
          queued := if returnQueued then sF.resultQueuedOps else []
          scene := none
          sceneItemErrors := sF.resultItemErrors } }
  else
    let ev1 := sF.events ++ [Ev.commitScene, Ev.pollSceneReady]
    match env.sceneReady with
    | none => { events := ev1, result := none }
    | some _ =>
      { events := ev1 ++ [Ev.fitCamera]
        result := some
          { errors := sF.resultBatchErrors
            queued := if returnQueued then sF.resultQueuedOps else []
            scene := some env.fittedScene
            sceneItemErrors := sF.resultItemErrors } }

/-! ## Derived notions used by the statements -/

/-- The loop guard of `pollQueuedJob` without the attempt bound: the poll
outcome is still pending (allowed 404, valid still-queued job, or retryable
client error). -/
def pendingRes {T : Type} (allow404 : Bool) (p : PollJobRes T) : Bool :=
  allowed404 allow404 p.status || validJob p.res || isClientError p.res

/-- How many requests of `l` share the parent key `k`. -/
def countKey (l : List CreateSceneItemRequest) (k : String) : Nat :=
  (l.filter fun r => reqParentKey r == k).length

/-- Depth of a request in the forest formed by the request list `A`:
roots are the requests whose parent key is empty; a request whose parent key
is the `suppliedId` of a depth-`d` member has depth `d + 1`. -/
inductive HasDepth (A : List CreateSceneItemRequest) :
    CreateSceneItemRequest → Nat → Prop where
  | root (r : CreateSceneItemRequest) : r ∈ A → reqParentKey r = "" → HasDepth A r 0
  | child (r p : CreateSceneItemRequest) (d : Nat) (s : String) :
      r ∈ A → HasDepth A p d → p.data.attributes.suppliedId = some s →
      reqParentKey r = s → HasDepth A r (d + 1)

/-- The request a submitted batch operation carries. -/
def reqOfOp (op : BatchOperation) : CreateSceneItemRequest :=
  { data := op.data }

/-- The ordinal-assigned request list of a pipeline run. -/
def assignedReqs (createSceneItemReqs : List CreateSceneItemRequest) :
    List CreateSceneItemRequest :=
  (processReqs createSceneItemReqs []).1

/-- The shape of the events a batch submission block contributes. -/
def SubmitEvShape (d : Nat) (layer : List CreateSceneItemRequest) (e : Ev) : Prop :=
  ∃ rt ops, e = Ev.batchSubmit d rt ops ∧
    (rt = false → ∀ op ∈ ops, reqOfOp op ∈ layer) ∧
    (rt = true → ∀ op ∈ ops,
      mapGet op.data.attributes.metadata SceneItemSystemMetadataIsMissingGeometry =
        some (some { type := ("string"), value := ("1") }))

/-- An event is a batch submission whose non-retry operations come from the
layer its depth tag names and whose retry operations carry the
missing-geometry flag. -/
def EvOk (layers : List (List CreateSceneItemRequest)) (e : Ev) : Prop :=
  ∃ t rt ops, e = Ev.batchSubmit t rt ops ∧
    (rt = false → ∀ op ∈ ops, ∃ L, layers.get? t = some L ∧ reqOfOp op ∈ L) ∧
    (rt = true → ∀ op ∈ ops,
      mapGet op.data.attributes.metadata SceneItemSystemMetadataIsMissingGeometry =
        some (some { type := ("string"), value := ("1") }))

/-- Depth tags of batch submissions are ordered between two events. -/
def TagLe (e e' : Ev) : Prop :=
  ∀ t rt ops t' rt' ops', e = Ev.batchSubmit t rt ops →
    e' = Ev.batchSubmit t' rt' ops' → t ≤ t'

/-- Every event tag is below the bound. -/
def TagLt (bound : Nat) (e : Ev) : Prop :=
  ∀ t rt ops, e = Ev.batchSubmit t rt ops → t < bound

/-- Every sibling list of the map holds members of `A` keyed by their own
parent key. -/
def MapSub (m : ReqMap) (A : List CreateSceneItemRequest) : Prop :=
  ∀ k l, mapGet m k = some l → ∀ x ∈ l, x ∈ A ∧ reqParentKey x = k

/-! ## Concrete fixtures for evaluated runs -/

/-- A queued job that never resolves. -/
def stillQueuedJob : QueuedJob :=
  { data := { id := ("job-queued"), type := ("queued-batch"),
              attributes := { status := ("queued") } } }

/-- A fetch oracle that always reports the job still queued. -/
def fetchStillQueued : Nat → FetchOutcome Unit :=
  fun _ => .success 200 (.queuedJob stillQueuedJob)

/-- A 404 failure body, as carried by a thrown `VertexError`. -/
def notFound404Failure : Failure :=
  { errors := [{ id := none, status := some ("404"), code := some ("NotFound"),
                 title := none, detail := none, source := none }] }

/-- A fetch oracle that reports still-queued on attempt 1, a 404 on attempt
2, and the resolved resource from attempt 3 on. -/
def fetchConverge : Nat → FetchOutcome String := fun i =>
  if i = 1 then .success 200 (.queuedJob stillQueuedJob)
  else if i = 2 then .vertexErr 404 notFound404Failure
  else .success 200 (.resource ("resolved-item"))

/-- A scene-item request fixture with the given supplied id, parent
attribute and ordinal. -/
def mkItemReq (suppliedId parent : Option String) (ordinal : Option Nat) :
    CreateSceneItemRequest :=
  { data := { type := ("scene-item")
              attributes := { suppliedId := suppliedId, parent := parent,
                              ordinal := ordinal, source := none, metadata := [] }
              relationships := { parent := none, source := none } } }

/-- The created scene fixture. -/
def sceneFixture : Scene :=
  { data := { id := ("scene-1"), attributes := { state := ("draft") } } }

/-- The scene fixture after commit and camera fit. -/
def fittedSceneFixture : Scene :=
  { data := { id := ("scene-1"), attributes := { state := ("ready") } } }

/-- An accepted queued batch job. -/
def queuedBatchJobFixture : QueuedJob :=
  { data := { id := ("queued-batch-1"), type := ("queued-batch"),
              attributes := { status := ("queued") } } }

/-- An immediate batch rejection body. -/
def rejectFailure : Failure :=
  { errors := [{ id := some ("reject-1"), status := some ("400"),
                 code := some ("BadRequest"), title := none, detail := none,
                 source := none }] }

/-- A successful per-operation batch result. -/
def successRel : RelationshipData :=
  { id := ("item-1"), type := ("scene-item") }

/-- A per-operation `NotFound` error whose source pointer names the source
relationship (part/geometry not found). -/
def partNotFoundApiError : ApiError :=
  { id := none, status := some ("404"), code := some ("NotFound"),
    title := none, detail := none,
    source := some { pointer := some SceneItemErrorSourcePointerSourcePart } }

/-- A per-operation `NotFound` error whose source pointer names the parent
attribute. -/
def parentPointerApiError : ApiError :=
  { id := none, status := some ("404"), code := some ("NotFound"),
    title := none, detail := none,
    source := some { pointer := some SceneItemErrorSourcePointerParent } }

/-- The loop state before the first layer, with no pre-existing errors. -/
def emptyLoopState : LoopState :=
  { nSub := 0, nPoll := 0, events := [], resultQueuedOps := [],
    resultBatchErrors := [], resultItemErrors := [], createFailed := false,
    halted := false }

/-- Two-layer request fixture: a root with supplied id `a` and its child. -/
def reqs2 : List CreateSceneItemRequest :=
  [mkItemReq (some ("a")) none none, mkItemReq none (some ("a")) none]

/-- Environment in which the single depth-0 batch is rejected outright while
everything later succeeds. -/
def env2 : Env :=
  { createdScene := sceneFixture
    submit := fun n => if n = 0 then .failure rejectFailure
      else .queuedJob queuedBatchJobFixture
    pollBatch := fun _ => .resource { results := [.rel successRel] }
    sceneReady := some fittedSceneFixture
    fittedScene := fittedSceneFixture }

/-- Single-root request fixture. -/
def reqs10 : List CreateSceneItemRequest :=
  [mkItemReq none none none]

/-- Environment in which the single batch is accepted and resolves with one
per-operation `NotFound` error. -/
def env10 : Env :=
  { createdScene := sceneFixture
    submit := fun _ => .queuedJob queuedBatchJobFixture
    pollBatch := fun _ => .resource { results := [.err partNotFoundApiError] }
    sceneReady := some fittedSceneFixture
    fittedScene := fittedSceneFixture }

/-- A scene-item request whose source relationship names a geometry set. -/
def itemWithSourceReq : CreateSceneItemRequest :=
  { data := { type := ("scene-item")
              attributes := { suppliedId := some ("x"), parent := none,
                              ordinal := some 0, source := none, metadata := [] }
              relationships := { parent := none,
                                 source := some { data := { id := ("geo-1"),
                                                            type := ("geometry-set") } } } } }

/-- Layer fixture for the placeholder-retry scenario: the sourced item plus a
plain one. -/
def layer6 : List CreateSceneItemRequest :=
  [itemWithSourceReq, mkItemReq none none (some 1)]

/-- Environment in which the layer batch resolves with one part-not-found
error and one parent-pointer error, and the retry batch resolves with a
scene-item relationship. -/
def env6 : Env :=
  { createdScene := sceneFixture
    submit := fun _ => .queuedJob queuedBatchJobFixture
    pollBatch := fun n =>
      if n = 0 then
        .resource { results := [.err partNotFoundApiError, .err parentPointerApiError] }
      else .resource { results := [.rel successRel] }
    sceneReady := some fittedSceneFixture
    fittedScene := fittedSceneFixture }

/-- The ghost events of the two-layer run used as the depth-order witness. -/
def evsW : List Ev := (createSceneAndSceneItems env2 reqs2 false true).events

/-- The operations of the batch submission at the given event index of the
depth-order witness run. -/
def opsW (i : Nat) : List BatchOperation :=
  match evsW.get? i with
  | some (Ev.batchSubmit _ _ ops) => ops
  | _ => []

/-- A default batch operation, used only as a `getD` fallback. -/
def dummyOpW : BatchOperation :=
  { data := dummyReqData
    op := ("add")
    ref := { type := ("scene"), id := ("scene-1") } }

/-! # Theorems

## Association-list and lookup helpers -/

theorem mem_keys_exists_lookup {β : Type} (l : List (Nat × β)) (k : Nat)
    (h : k ∈ l.map Prod.fst) : ∃ v, l.lookup k = some v ∧ (k, v) ∈ l := by
  induction l with
  | nil => simp at h
  | cons hd tl ih =>
    by_cases hk : k = hd.1
    · refine ⟨hd.2, ?_, ?_⟩
      · simp [List.lookup, hk]
      · subst hk
        simp
    · simp only [List.map_cons, List.mem_cons] at h
      rcases h with h | h

      · exact absurd h hk
      · rcases ih h with ⟨v, hv, hmem⟩
        refine ⟨v, ?_, List.mem_cons_of_mem _ hmem⟩
        have hb : (k == hd.1) = false := beq_eq_false_iff_ne.mpr hk
        simpa [List.lookup, hb] using hv

theorem lookup_eq_none_of_not_mem {β : Type} (l : List (Nat × β)) (k : Nat)
    (h : k ∉ l.map Prod.fst) : l.lookup k = none := by
  induction l with
  | nil => rfl
  | cons hd tl ih =>
    simp only [List.map_cons, List.mem_cons, not_or] at h
    have hb : (k == hd.1) = false := beq_eq_false_iff_ne.mpr h.1
    simp [List.lookup, hb, ih h.2]

/-- Over a table with strictly ascending keys and non-decreasing values,
the looked-up delay is monotone in the key (for keys present in the table). -/
theorem lookup_getD_mono (t : BackoffTable)
    (hkeys : List.Pairwise (· < ·) (t.map Prod.fst))
    (hvals : List.Pairwise (· ≤ ·) (t.map Prod.snd)) :
    ∀ k1 k2, k1 ∈ t.map Prod.fst → k2 ∈ t.map Prod.fst → k1 ≤ k2 →
      (t.lookup k1).getD 0 ≤ (t.lookup k2).getD 0 := by
  induction t with
  | nil => intro k1 k2 h1 _ _; simp at h1
  | cons hd tl ih =>
    intro k1 k2 h1 h2 hle
    simp only [List.map_cons, List.pairwise_cons] at hkeys hvals
    by_cases e1 : k1 = hd.1
    · have hl1 : (hd :: tl).lookup k1 = some hd.2 := by
        simp [List.lookup, e1]
      by_cases e2 : k2 = hd.1
      · have hl2 : (hd :: tl).lookup k2 = some hd.2 := by
          simp [List.lookup, e2]
        rw [hl1, hl2]
      · have h2' : k2 ∈ tl.map Prod.fst := by
          simpa [e2] using h2
        rcases mem_keys_exists_lookup tl k2 h2' with ⟨v2, hv2, hmem2⟩
        have hb : (k2 == hd.1) = false := beq_eq_false_iff_ne.mpr e2
        have hl2 : (hd :: tl).lookup k2 = some v2 := by
          simp [List.lookup, hb, hv2]
        rw [hl1, hl2]
        have : hd.2 ≤ v2 := hvals.1 v2 (List.mem_map_of_mem Prod.snd hmem2)
        simpa using this
    · have h1' : k1 ∈ tl.map Prod.fst := by
        simpa [e1] using h1
      by_cases e2 : k2 = hd.1
      · exfalso
        have : hd.1 < k1 := hkeys.1 k1 h1'
        omega
      · have h2' : k2 ∈ tl.map Prod.fst := by
          simpa [e2] using h2
        have hb1 : (k1 == hd.1) = false := beq_eq_false_iff_ne.mpr e1
        have hb2 : (k2 == hd.1) = false := beq_eq_false_iff_ne.mpr e2
        have r1 : (hd :: tl).lookup k1 = tl.lookup k1 := by simp [List.lookup, hb1]
        have r2 : (hd :: tl).lookup k2 = tl.lookup k2 := by simp [List.lookup, hb2]
        rw [r1, r2]
        exact ih hkeys.2 hvals.2 k1 k2 h1' h2' hle

/-- On a strictly descending key list, `find?` of the keys below `a` returns
the maximum key below `a`. -/
theorem find?_max_of_descending (keys : List Nat) (a : Nat) :
    List.Pairwise (· > ·) keys → ∀ ka : Nat,
      keys.find? (fun key => decide (a > key)) = some ka →
      ∀ k ∈ keys, k < a → k ≤ ka := by
  induction keys with
  | nil => intro _ ka hfind; simp at hfind
  | cons k0 rest ih =>
    intro hd ka hfind k hk hka
    simp only [List.pairwise_cons] at hd
    by_cases h0 : a > k0
    · rw [List.find?_cons_of_pos _ (by simpa using h0)] at hfind
      obtain rfl := Option.some_inj.mp hfind
      rcases List.mem_cons.mp hk with rfl | hmem
      · exact le_refl _
      · exact le_of_lt (hd.1 _ hmem)
    · rw [List.find?_cons_of_neg _ (by simpa using h0)] at hfind
      rcases List.mem_cons.mp hk with rfl | hmem
      · omega
      · exact ih hd.2 ka hfind k hmem hka

/-! ## Backoff policy theorems -/

/-- C8 counterexample: the backoff lookup is not monotone over every table;
on the table `{0: 1000, 10: 5}` attempt 1 maps to a delay of 1000 and
attempt 11 to a delay of 5. -/
theorem getBackoffForAttempt_not_monotone :
    1 ≤ 11 ∧
      ¬ (getBackoffForAttempt 1 (some decreasingBackoffTable) none ≤
          getBackoffForAttempt 11 (some decreasingBackoffTable) none) := by
  decide

/-- C8 (amended): over every backoff table whose keys ascend strictly and
whose delay values are non-decreasing across those thresholds (as both
default tables are), the delay assigned by `getBackoffForAttempt` is
monotone in the attempt number. -/
theorem getBackoffForAttempt_monotone (t : BackoffTable)
    (hkeys : List.Chain' (· < ·) (t.map Prod.fst))
    (hvals : List.Chain' (· ≤ ·) (t.map Prod.snd))
    (a b : Nat) (hab : a ≤ b) :
    getBackoffForAttempt a (some t) none ≤ getBackoffForAttempt b (some t) none := by
  have hpk : List.Pairwise (· < ·) (t.map Prod.fst) := List.chain'_iff_pairwise.mp hkeys
  have hpv : List.Pairwise (· ≤ ·) (t.map Prod.snd) := List.chain'_iff_pairwise.mp hvals
  have hdesc : List.Pairwise (· > ·) (getBackoffKeys t) := by
    unfold getBackoffKeys
    exact List.pairwise_reverse.mpr hpk
  simp only [getBackoffForAttempt, Option.getD_none]
  rcases hfa : (getBackoffKeys t).find? (fun key => decide (a > key)) with _ | ka
  · rcases hfb : (getBackoffKeys t).find? (fun key => decide (b > key)) with _ | kb
    · simp
    · have hkb : kb ∈ getBackoffKeys t := List.mem_of_find?_eq_some hfb
      have hkbmem : kb ∈ t.map Prod.fst := by
        unfold getBackoffKeys at hkb
        exact List.mem_reverse.mp hkb
      simp only [Option.getD_none, Option.getD_some]
      by_cases h0 : (0 : Nat) ∈ t.map Prod.fst
      · exact lookup_getD_mono t hpk hpv 0 kb h0 hkbmem (Nat.zero_le kb)
      · rw [lookup_eq_none_of_not_mem t 0 h0]
        simp
  · have hka : ka ∈ getBackoffKeys t := List.mem_of_find?_eq_some hfa
    have hpa : a > ka := by
      have := List.find?_some hfa
      simpa using this
    have hkab : b > ka := by omega
    rcases hfb : (getBackoffKeys t).find? (fun key => decide (b > key)) with _ | kb
    · exfalso
      have := List.find?_eq_none.mp hfb ka hka
      simp at this
      omega
    · have hkb : kb ∈ getBackoffKeys t := List.mem_of_find?_eq_some hfb
      have hle : ka ≤ kb :=
        find?_max_of_descending (getBackoffKeys t) b hdesc kb hfb ka hka hkab
      simp only [Option.getD_some]
      exact lookup_getD_mono t hpk hpv ka kb
        (List.mem_reverse.mp hka) (List.mem_reverse.mp hkb) hle

/-- C8 witness: monotonicity of the backoff lookup on the default table at
attempts 3 and 42. -/
theorem getBackoffForAttempt_monotone_witness :
    getBackoffForAttempt 3 (some DefaultBackoffMs) none ≤
      getBackoffForAttempt 42 (some DefaultBackoffMs) none :=
  getBackoffForAttempt_monotone DefaultBackoffMs
    (by simp [DefaultBackoffMs, DefaultPollIntervalMs, List.chain'_cons])
    (by simp [DefaultBackoffMs, DefaultPollIntervalMs, List.chain'_cons])
    3 42 (by decide)

/-- C3: evaluation of `getMaxAttempts` at the failing input. Without a
backoff table, the source computes `max(1, floor(maxPollDurationSeconds / intervalMs))`
with the duration still in seconds, so a 3600-second budget at a 500 ms
interval yields 7 attempts instead of the 7200 the claimed formula
`floor(targetDurationSeconds * 1000 / baseIntervalMs)` gives. -/
theorem getMaxAttempts_noBackoff_failing_input :
    getMaxAttempts 500 3600 none = 7 ∧ 3600 * 1000 / 500 = 7200 := by
  decide

/-! ## Max-attempts simulation, backoff branch -/

theorem getBackoffForAttempt_keys_eq (a : Nat) (b : BackoffTable) :
    getBackoffForAttempt a (some b) (some (getBackoffKeys b)) =
      getBackoffForAttempt a (some b) none := rfl

theorem cumulativeWait_succ (intervalMs : Nat) (b : BackoffTable) (n : Nat) :
    cumulativeWait intervalMs b (n + 1) =
      cumulativeWait intervalMs b n +
        (intervalMs + getBackoffForAttempt (n + 1) (some b) none) := rfl

theorem getMaxAttemptsGo_nonpos (intervalMs : Nat) (b : BackoffTable)
    (backoffKeys : List Nat) :
    ∀ fuel (r : Int) (a : Nat), r ≤ 0 →
      getMaxAttemptsGo intervalMs b backoffKeys fuel r a = a := by
  intro fuel r a hr
  cases fuel with
  | zero => rfl
  | succ fuel =>
    simp only [getMaxAttemptsGo]
    rw [if_neg (by omega)]

/-- Characterization of the simulation loop: starting from attempt `a` with
the remaining budget `W` minus the cumulative wait of attempts `1..a`, the
loop returns the first attempt count whose cumulative wait reaches `W`. -/
theorem getMaxAttemptsGo_char (intervalMs : Nat) (b : BackoffTable)
    (hI : 0 < intervalMs) (W : Nat) :
    ∀ (fuel a : Nat), (W : Int) - (cumulativeWait intervalMs b a : Int) ≤ (fuel : Int) →
      cumulativeWait intervalMs b a < W →
      W ≤ cumulativeWait intervalMs b
          (getMaxAttemptsGo intervalMs b (getBackoffKeys b) fuel
            ((W : Int) - (cumulativeWait intervalMs b a : Int)) a) ∧
        cumulativeWait intervalMs b
          (getMaxAttemptsGo intervalMs b (getBackoffKeys b) fuel
            ((W : Int) - (cumulativeWait intervalMs b a : Int)) a - 1) < W ∧
        a < getMaxAttemptsGo intervalMs b (getBackoffKeys b) fuel
          ((W : Int) - (cumulativeWait intervalMs b a : Int)) a := by
  intro fuel
  induction fuel with
  | zero =>
    intro a hfuel hcum
    exfalso
    push_cast at hfuel
    omega
  | succ fuel ih =>
    intro a hfuel hcum
    simp only [getMaxAttemptsGo]
    rw [if_pos (by omega)]
    rw [getBackoffForAttempt_keys_eq]
    have harg : (W : Int) - (cumulativeWait intervalMs b a : Int) -
        ((intervalMs : Int) + (getBackoffForAttempt (a + 1) (some b) none : Int)) =
        (W : Int) - (cumulativeWait intervalMs b (a + 1) : Int) := by
      rw [cumulativeWait_succ]
      push_cast
      ring
    rw [harg]
    by_cases hnext : cumulativeWait intervalMs b (a + 1) < W
    · have hfuel' : (W : Int) - (cumulativeWait intervalMs b (a + 1) : Int) ≤ (fuel : Int) := by
        rw [cumulativeWait_succ] at hnext ⊢
        push_cast at hfuel ⊢
        omega
      rcases ih (a + 1) hfuel' hnext with ⟨h1, h2, h3⟩
      exact ⟨h1, h2, by omega⟩
    · rw [getMaxAttemptsGo_nonpos intervalMs b (getBackoffKeys b) fuel _ (a + 1)
        (by omega)]
      refine ⟨by omega, ?_, by omega⟩
      simpa using hcum

/-- The backoff branch of `getMaxAttempts` satisfies the max-attempts bound:
the cumulative simulated wait of attempts `1..N` reaches the duration budget
`maxPollDurationSeconds * 1000` while that of attempts `1..N-1` does not. -/
theorem getMaxAttempts_backoff_spec (intervalMs maxPollDurationSeconds : Nat)
    (b : BackoffTable) (hI : 0 < intervalMs) (hD : 0 < maxPollDurationSeconds) :
    maxPollDurationSeconds * 1000 ≤
        cumulativeWait intervalMs b (getMaxAttempts intervalMs maxPollDurationSeconds (some b)) ∧
      cumulativeWait intervalMs b
          (getMaxAttempts intervalMs maxPollDurationSeconds (some b) - 1) <
        maxPollDurationSeconds * 1000 ∧
      1 ≤ getMaxAttempts intervalMs maxPollDurationSeconds (some b) := by
  have hcum0 : cumulativeWait intervalMs b 0 = 0 := rfl
  have h := getMaxAttemptsGo_char intervalMs b hI (maxPollDurationSeconds * 1000)
    (maxPollDurationSeconds * 1000 + 1) 0 (by rw [hcum0]; push_cast; omega)
    (by rw [hcum0]; positivity)
  have harg : ((maxPollDurationSeconds * 1000 : Nat) : Int) -
      (cumulativeWait intervalMs b 0 : Int) = (maxPollDurationSeconds : Int) * 1000 := by
    rw [hcum0]
    push_cast
    ring
  rw [harg] at h
  simp only [getMaxAttempts]
  exact ⟨h.1, h.2.1, by omega⟩

/-! ## Poller loop lemmas -/

theorem validJob_resource {T : Type} (v : T) : validJob (PollRes.resource v) = false := rfl

theorem isClientError_resource {T : Type} (v : T) :
    isClientError (PollRes.resource v) = false := rfl

theorem pollQueuedJobGo_succ {T : Type} (fetch : Nat → FetchOutcome T) (allow404 : Bool)
    (intervalMs maxAttempts fuel attempts : Nat) (pollRes : PollJobRes T)
    (waits : List Nat) :
    pollQueuedJobGo fetch allow404 intervalMs maxAttempts (fuel + 1) attempts pollRes waits =
      if pendingRes allow404 pollRes && decide (attempts ≤ maxAttempts) then
        pollQueuedJobGo fetch allow404 intervalMs maxAttempts fuel (attempts + 1)
          (pollAttempt (fetch (attempts + 1))) (waits ++ [intervalMs])
      else (pollRes, attempts, waits) := rfl

/-- If every attempt in `[a, s)` is still pending and attempt `s ≤ maxAttempts`
is not, the loop stops at attempt `s`, having waited `intervalMs` between each
pair of consecutive attempts. -/
theorem pollQueuedJobGo_converge {T : Type} (fetch : Nat → FetchOutcome T)
    (allow404 : Bool) (intervalMs maxAttempts s : Nat)
    (hs : s ≤ maxAttempts)
    (hpend : ∀ i, 1 ≤ i → i < s → pendingRes allow404 (pollAttempt (fetch i)) = true)
    (hstop : pendingRes allow404 (pollAttempt (fetch s)) = false) :
    ∀ fuel a w, fuel + a = maxAttempts + 1 → 1 ≤ a → a ≤ s →
      pollQueuedJobGo fetch allow404 intervalMs maxAttempts fuel a
          (pollAttempt (fetch a)) w =
        (pollAttempt (fetch s), s, w ++ List.replicate (s - a) intervalMs) := by
  intro fuel
  induction fuel with
  | zero =>
    intro a w hfa h1 has
    omega
  | succ fuel ih =>
    intro a w hfa h1 has
    rw [pollQueuedJobGo_succ]
    by_cases hcase : a = s
    · subst hcase
      rw [hstop]
      simp
    · have halt : a < s := lt_of_le_of_ne has hcase
      have hle : a ≤ maxAttempts := by omega
      rw [hpend a h1 halt]
      simp only [Bool.true_and, decide_eq_true_eq, if_pos hle]
      rw [ih (a + 1) (w ++ [intervalMs]) (by omega) (by omega) (by omega)]
      have harr : s - a = (s - (a + 1)) + 1 := by omega
      rw [harr, List.append_assoc]
      simp [List.replicate_succ]

/-- If every attempt is still pending, the loop stops only when the attempt
counter exceeds `maxAttempts`, at attempt `maxAttempts + 1`. -/
theorem pollQueuedJobGo_exhaust {T : Type} (fetch : Nat → FetchOutcome T)
    (allow404 : Bool) (intervalMs maxAttempts : Nat)
    (hpend : ∀ i, pendingRes allow404 (pollAttempt (fetch i)) = true) :
    ∀ fuel a w, fuel + a = maxAttempts + 1 →
      pollQueuedJobGo fetch allow404 intervalMs maxAttempts fuel a
          (pollAttempt (fetch a)) w =
        (pollAttempt (fetch (maxAttempts + 1)), maxAttempts + 1,
          w ++ List.replicate (maxAttempts + 1 - a) intervalMs) := by
  intro fuel
  induction fuel with
  | zero =>
    intro a w hfa
    have ha : a = maxAttempts + 1 := by omega
    subst ha
    simp [pollQueuedJobGo]
  | succ fuel ih =>
    intro a w hfa
    rw [pollQueuedJobGo_succ]
    have hle : a ≤ maxAttempts := by omega
    rw [hpend a]
    simp only [Bool.true_and, decide_eq_true_eq, if_pos hle]
    rw [ih (a + 1) (w ++ [intervalMs]) (by omega)]
    have harr : maxAttempts + 1 - a = (maxAttempts + 1 - (a + 1)) + 1 := by omega
    rw [harr, List.append_assoc]
    simp [List.replicate_succ]

/-! ## Poller theorems -/

/-- C1: evaluation at the failing input. With a configuration carrying the
default backoff table (`intervalMs = 500`), the wait performed before every
retry is 500 ms (the loop calls `delay(intervalMs)`), while
`getPollingDelay` assigns attempts 1 and 2 a wait of 1000 ms; the poller
never consults `polling.backoff`. -/
theorem pollQueuedJob_wait_failing_input :
    (pollQueuedJob fetchStillQueued ("job-a") false
        { intervalMs := 500, maxAttempts := 2, backoff := some DefaultBackoffMs }).waits =
      [500, 500] ∧
    getPollingDelay 1
        { intervalMs := 500, maxAttempts := 2, backoff := some DefaultBackoffMs } = 1000 ∧
    getPollingDelay 2
        { intervalMs := 500, maxAttempts := 2, backoff := some DefaultBackoffMs } = 1000 ∧
    (pollQueuedJob fetchStillQueued ("job-a") false
        { intervalMs := 500, maxAttempts := 2, backoff := some DefaultBackoffMs }).waits.get? 0 ≠
      some (getPollingDelay 1
        { intervalMs := 500, maxAttempts := 2, backoff := some DefaultBackoffMs }) := by
  decide

/-- C4 counterexample: with `maxAttempts = 1` and a fetch stub that always
reports the job still queued, `pollQueuedJob` returns with `attempts = 2`,
that is after 2 fetch attempts, not 1. -/
theorem pollQueuedJob_exhaustion_counterexample :
    (pollQueuedJob fetchStillQueued ("job-a") false
        { intervalMs := 500, maxAttempts := 1, backoff := none }).attempts = 2 ∧
      (2 : Nat) ≠ 1 := by
  decide

/-- C4 (amended): for every `maxAttempts = m ≥ 1` and every fetch stub that
always returns a still-queued job, `pollQueuedJob` returns after exactly
`m + 1` fetch attempts (the initial fetch plus one per loop iteration, the
`attempts` field reading `m + 1 > maxAttempts`), with a still-pending
queued-job result. -/
theorem pollQueuedJob_exhaustion {T : Type} (fetch : Nat → FetchOutcome T)
    (id : String) (allow404 : Bool) (polling : Polling)
    ( _hm : 1 ≤ polling.maxAttempts)
    (hq : ∀ i, validJob (pollAttempt (fetch i)).res = true) :
    (pollQueuedJob fetch id allow404 polling).attempts = polling.maxAttempts + 1 ∧
      validJob (pollQueuedJob fetch id allow404 polling).res = true := by
  have hpend : ∀ i, pendingRes allow404 (pollAttempt (fetch i)) = true := by
    intro i
    unfold pendingRes
    rw [hq i]
    simp
  simp only [pollQueuedJob]
  rw [pollQueuedJobGo_exhaust fetch allow404 polling.intervalMs polling.maxAttempts
    hpend polling.maxAttempts 1 [] (by omega)]
  exact ⟨rfl, hq _⟩

/-- C4 witness: exhaustion at `maxAttempts = 3` with the always-queued stub. -/
theorem pollQueuedJob_exhaustion_witness :
    (pollQueuedJob fetchStillQueued ("job-w") false
        { intervalMs := 500, maxAttempts := 3, backoff := none }).attempts = 3 + 1 ∧
      validJob (pollQueuedJob fetchStillQueued ("job-w") false
        { intervalMs := 500, maxAttempts := 3, backoff := none }).res = true :=
  pollQueuedJob_exhaustion fetchStillQueued ("job-w") false
    { intervalMs := 500, maxAttempts := 3, backoff := none } (by decide)
    (fun _ => rfl)

/-- C7: for every `k < maxAttempts`, if the first `k` fetch responses are
each either a valid still-queued job or an HTTP 404 with `allow404` set, and
the `(k+1)`-th response is the resolved target resource (with a non-404
status), then `pollQueuedJob` returns that resource with `attempts = k + 1`. -/
theorem pollQueuedJob_converge {T : Type} (fetch : Nat → FetchOutcome T)
    (id : String) (allow404 : Bool) (polling : Polling) (k : Nat) (v : T)
    (hk : k < polling.maxAttempts)
    (hpend : ∀ i, 1 ≤ i → i ≤ k →
      validJob (pollAttempt (fetch i)).res = true ∨
        (allow404 = true ∧ (pollAttempt (fetch i)).status = 404))
    (hres : (pollAttempt (fetch (k + 1))).res = PollRes.resource v)
    (hst : (pollAttempt (fetch (k + 1))).status ≠ 404) :
    (pollQueuedJob fetch id allow404 polling).res = PollRes.resource v ∧
      (pollQueuedJob fetch id allow404 polling).attempts = k + 1 := by
  have hpend' : ∀ i, 1 ≤ i → i < k + 1 →
      pendingRes allow404 (pollAttempt (fetch i)) = true := by
    intro i h1 h2
    rcases hpend i h1 (by omega) with h | ⟨ha, hs4⟩
    · unfold pendingRes
      rw [h]
      simp
    · unfold pendingRes allowed404
      rw [ha, hs4]
      simp
  have hstop : pendingRes allow404 (pollAttempt (fetch (k + 1))) = false := by
    unfold pendingRes allowed404
    rw [hres, validJob_resource, isClientError_resource]
    have : ((pollAttempt (fetch (k + 1))).status == 404) = false :=
      beq_eq_false_iff_ne.mpr hst
    rw [this]
    simp
  simp only [pollQueuedJob]
  rw [pollQueuedJobGo_converge fetch allow404 polling.intervalMs polling.maxAttempts
    (k + 1) (by omega) hpend' hstop polling.maxAttempts 1 [] (by omega) (by omega)
    (by omega)]
  exact ⟨hres, rfl⟩

/-- C7 witness: convergence after one still-queued response and one allowed
404, at `k = 2`, `maxAttempts = 5`. -/
theorem pollQueuedJob_converge_witness :
    (pollQueuedJob fetchConverge ("job-c") true
        { intervalMs := 500, maxAttempts := 5, backoff := none }).res =
      PollRes.resource ("resolved-item") ∧
    (pollQueuedJob fetchConverge ("job-c") true
        { intervalMs := 500, maxAttempts := 5, backoff := none }).attempts = 2 + 1 :=
  pollQueuedJob_converge fetchConverge ("job-c") true
    { intervalMs := 500, maxAttempts := 5, backoff := none } 2 ("resolved-item")
    (by decide)
    (by
      intro i h1 h2
      interval_cases i
      · exact Or.inl (by decide)
      · exact Or.inr (by decide))
    (by decide) (by decide)

/-! ## JS map lemmas -/

theorem mapGet_set_self {β : Type} (m : List (String × β)) (k : String) (v : β) :
    mapGet (mapSet m k v) k = some v := by
  induction m with
  | nil => simp [mapSet, mapGet]
  | cons hd tl ih =>
    by_cases h : hd.1 = k
    · simp [mapSet, h, mapGet]
    · simp [mapSet, h, mapGet, ih]

theorem mapGet_set_ne {β : Type} (m : List (String × β)) (k k' : String) (v : β)
    (h : k' ≠ k) : mapGet (mapSet m k v) k' = mapGet m k' := by
  induction m with
  | nil =>
    simp only [mapSet, mapGet]
    rw [if_neg (fun hh => h hh.symm)]
  | cons hd tl ih =>
    by_cases hh : hd.1 = k
    · subst hh
      simp [mapSet, mapGet, h, Ne.symm h]
    · simp only [mapSet, if_neg hh]
      by_cases hk' : hd.1 = k'
      · simp [mapGet, hk']
      · simp [mapGet, hk', ih]

/-! ## Ordinal assignment (C9) -/

theorem countKey_cons (r : CreateSceneItemRequest) (l : List CreateSceneItemRequest)
    (k : String) :
    countKey (r :: l) k =
      countKey l k + (if reqParentKey r == k then 1 else 0) := by
  by_cases h : reqParentKey r == k
  · simp [countKey, List.filter, h]
  · simp only [Bool.not_eq_true] at h
    simp [countKey, List.filter, h]

/-- Pointwise characterization of the `forEach` pass: the request at
position `i` keeps its explicit ordinal, or receives the count of earlier
requests sharing its parent key, offset by the sibling count the incoming
map already holds for that key. -/
theorem processReqs_get? (reqs : List CreateSceneItemRequest) :
    ∀ (m : ReqMap) (i : Nat),
      ((processReqs reqs m).1).get? i =
        (reqs.get? i).map (fun r =>
          if r.data.attributes.ordinal = none then
            setOrdinal r (((mapGet m (reqParentKey r)).getD []).length +
              countKey (reqs.take i) (reqParentKey r))
          else r) := by
  induction reqs with
  | nil => intro m i; simp [processReqs]
  | cons req rest ih =>
    intro m i
    simp only [processReqs]
    cases i with
    | zero =>
      simp [countKey]
    | succ i =>
      simp only [List.get?_cons_succ, List.take_succ_cons]
      rw [ih (mapSet m (reqParentKey req) (((mapGet m (reqParentKey req)).getD []) ++
        [if req.data.attributes.ordinal = none then
            setOrdinal req ((mapGet m (reqParentKey req)).getD []).length
          else req])) i]
      rcases hr : rest.get? i with _ | r
      · rfl
      · simp only [Option.map_some']
        congr 1
        by_cases hord : r.data.attributes.ordinal = none





        · rw [if_pos hord, if_pos hord]
          congr 1
          rw [countKey_cons]
          by_cases hkey : reqParentKey r = reqParentKey req
          · rw [hkey, mapGet_set_self]
            simp
            omega
          · rw [mapGet_set_ne m (reqParentKey req) (reqParentKey r) _ hkey]
            have hb : (reqParentKey req == reqParentKey r) = false := by
              simp only [beq_eq_false_iff_ne]
              exact fun hh => hkey hh.symm
            simp [hb]
        · rw [if_neg hord, if_neg hord]

/-! ## utils.ts list helper lemmas -/

theorem partition_foldl {α : Type} (l : List α) (p : α → Bool) :
    ∀ acc : Partitions α,
      l.foldl (fun q i => if p i then ⟨q.a ++ [i], q.b⟩ else ⟨q.a, q.b ++ [i]⟩) acc =
        ⟨acc.a ++ l.filter p, acc.b ++ l.filter fun x => !(p x)⟩ := by
  induction l with
  | nil => intro acc; simp
  | cons x xs ih =>
    intro acc
    by_cases h : p x
    · simp only [List.foldl_cons, if_pos h, ih, List.filter_cons, h]
      simp
    · have hb : p x = false := by simpa using h
      simp only [List.foldl_cons, if_neg h, ih, List.filter_cons, hb]
      simp

theorem partition_a {α : Type} (l : List α) (p : α → Bool) :
    (partition l p).a = l.filter p := by
  unfold partition
  rw [partition_foldl]
  simp

theorem partition_b {α : Type} (l : List α) (p : α → Bool) :
    (partition l p).b = l.filter fun x => !(p x) := by
  unfold partition
  rw [partition_foldl]
  simp

theorem arrayChunkedGo_flatten {α : Type} (n : Nat) (hn : 0 < n) :
    ∀ (fuel : Nat) (a : List α), a.length ≤ fuel →
      (arrayChunkedGo n fuel a).flatten = a := by
  intro fuel
  induction fuel with
  | zero =>
    intro a ha
    have : a = [] := List.length_eq_zero.mp (by omega)
    subst this
    rfl
  | succ fuel ih =>
    intro a ha
    cases a with
    | nil => rfl
    | cons x xs =>
      show (List.take n (x :: xs) :: arrayChunkedGo n fuel ((x :: xs).drop n)).flatten =
        x :: xs
      rw [List.flatten_cons, ih ((x :: xs).drop n) (by simp at ha ⊢; omega)]
      exact List.take_append_drop n (x :: xs)

theorem arrayChunked_flatten {α : Type} (a : List α) (n : Nat) (hn : 0 < n) :
    (arrayChunked a n).flatten = a :=
  arrayChunkedGo_flatten n hn a.length a (le_refl _)

theorem arrayChunked_mem {α : Type} {a : List α} {n : Nat} (hn : 0 < n)
    {c : List α} (hc : c ∈ arrayChunked a n) {x : α} (hx : x ∈ c) : x ∈ a := by
  have : x ∈ (arrayChunked a n).flatten := List.mem_flatten.mpr ⟨c, hc, hx⟩
  rwa [arrayChunked_flatten a n hn] at this

/-! ## Pipeline structural lemmas -/

theorem sceneItemOps_mem (sid : String) (layer : List CreateSceneItemRequest)
    {op : BatchOperation} (h : op ∈ sceneItemOps sid layer) : reqOfOp op ∈ layer := by
  unfold sceneItemOps at h
  rcases List.mem_map.mp h with ⟨r, hr, rfl⟩
  exact hr

theorem createSceneItemBatch_submitted (env : Env) (ff : Bool) (sid : String)
    (reqs : List CreateSceneItemRequest) (nS nP : Nat) :
    (createSceneItemBatch env ff sid reqs nS nP).submitted =
      arrayChunked (sceneItemOps sid reqs) 500 := by
  simp only [createSceneItemBatch, createSceneItems]
  split
  · rfl
  · split
    · rfl
    · split
      · rfl
      · rfl

theorem placeholder_metadata_flag (item : CreateSceneItemRequestData) :
    mapGet (placeholderRequest item).data.attributes.metadata
        SceneItemSystemMetadataIsMissingGeometry =
      some (some { type := ("string"), value := ("1") }) := by
  simp only [placeholderRequest]
  rw [mapGet_set_ne _ _ _ _ (by decide), mapGet_set_ne _ _ _ _ (by decide),
    mapGet_set_ne _ _ _ _ (by decide), mapGet_set_ne _ _ _ _ (by decide),
    mapGet_set_self]
  rfl

theorem mainEvs_shape (env : Env) (ff : Bool) (d : Nat)
    (layer : List CreateSceneItemRequest) (nS nP : Nat) :
    ∀ e ∈ (List.map (Ev.batchSubmit d false)
        (createSceneItemBatch env ff env.createdScene.data.id layer nS nP).submitted),
      SubmitEvShape d layer e := by
  intro e he
  rcases List.mem_map.mp he with ⟨ops, hops, rfl⟩
  rw [createSceneItemBatch_submitted] at hops
  refine ⟨false, ops, rfl, ?_, ?_⟩
  · intro _ op hop
    exact sceneItemOps_mem _ layer (arrayChunked_mem (by norm_num) hops hop)
  · intro h
    exact absurd h (by decide)

theorem retryEvs_shape (env : Env) (ff : Bool) (d : Nat)
    (layer : List CreateSceneItemRequest)
    (itemErrors : List SceneItemError) (nS nP : Nat) :
    ∀ e ∈ (List.map (Ev.batchSubmit d true)
        (createSceneItemBatch env ff env.createdScene.data.id
          (List.map (fun itemError => placeholderRequest itemError.req)
            (List.filter (fun v => isPartNotFoundError v.res) itemErrors)) nS nP).submitted),
      SubmitEvShape d layer e := by
  intro e he
  rcases List.mem_map.mp he with ⟨ops, hops, rfl⟩
  rw [createSceneItemBatch_submitted] at hops
  refine ⟨true, ops, rfl, ?_, ?_⟩
  · intro h
    exact absurd h (by decide)
  · intro _ op hop
    have hmem := arrayChunked_mem (by norm_num) hops hop
    unfold sceneItemOps at hmem
    rcases List.mem_map.mp hmem with ⟨r, hr, rfl⟩
    rcases List.mem_map.mp hr with ⟨ie, _, rfl⟩
    exact placeholder_metadata_flag ie.req

/-- The events appended by one layer iteration: every one is a batch
submission tagged with this depth; non-retry submissions carry operations of
this layer, retry submissions carry placeholder operations marked with the
missing-geometry flag. -/
theorem layerStep_events (env : Env) (ff : Bool) (d : Nat)
    (layer : List CreateSceneItemRequest) (s : LoopState) :
    ∃ new, (layerStep env ff d layer s).events = s.events ++ new ∧
      ∀ e ∈ new, SubmitEvShape d layer e := by
  simp only [layerStep]
  split_ifs with h1 h2 h3 h4 h5 h6
  · exact ⟨[], by simp, by simp⟩
  · exact ⟨_, rfl, mainEvs_shape env ff d layer s.nSub s.nPoll⟩
  · exact ⟨_, rfl, mainEvs_shape env ff d layer s.nSub s.nPoll⟩
  · exact ⟨_, rfl, mainEvs_shape env ff d layer s.nSub s.nPoll⟩
  · exact ⟨_, rfl, mainEvs_shape env ff d layer s.nSub s.nPoll⟩
  · refine ⟨_, by rw [List.append_assoc], fun e he => ?_⟩
    rcases List.mem_append.mp he with h | h
    · exact mainEvs_shape env ff d layer s.nSub s.nPoll e h
    · exact retryEvs_shape env ff d layer _ _ _ e h
  · refine ⟨_, by rw [List.append_assoc], fun e he => ?_⟩
    rcases List.mem_append.mp he with h | h
    · exact mainEvs_shape env ff d layer s.nSub s.nPoll e h
    · exact retryEvs_shape env ff d layer _ _ _ e h

/-- C9: in `createSceneAndSceneItems`, every request that lacks an explicit
ordinal is assigned an ordinal equal to its 0-based index, in input order,
among the requests sharing the same parent key (the count of earlier
same-key requests), while requests with explicit ordinals are unchanged. -/
theorem createSceneAndSceneItems_ordinals (reqs : List CreateSceneItemRequest) (i : Nat) :
    (assignedReqs reqs).get? i =
      (reqs.get? i).map (fun r =>
        if r.data.attributes.ordinal = none then
          setOrdinal r (countKey (reqs.take i) (reqParentKey r))
        else r) := by
  unfold assignedReqs
  rw [processReqs_get? reqs [] i]
  rcases hr : reqs.get? i with _ | r
  · simp
  · simp [mapGet]

/-! ## Loop-level event lemmas -/

theorem runLayers_events_batchOnly (env : Env) (ff : Bool) :
    ∀ (remaining : List (List CreateSceneItemRequest)) (d0 : Nat) (s : LoopState),
      (∀ e ∈ s.events, ∃ d rt ops, e = Ev.batchSubmit d rt ops) →
      ∀ e ∈ (runLayers env ff remaining d0 s).events,
        ∃ d rt ops, e = Ev.batchSubmit d rt ops := by
  intro remaining
  induction remaining with
  | nil => intro d0 s hs; exact hs
  | cons layer rest ih =>
    intro d0 s hs
    apply ih (d0 + 1)
    rcases layerStep_events env ff d0 layer s with ⟨new, hev, hshape⟩
    rw [hev]
    intro e he
    rcases List.mem_append.mp he with h | h
    · exact hs e h
    · rcases hshape e h with ⟨rt, ops, heq, _, _⟩
      exact ⟨d0, rt, ops, heq⟩

theorem pipelineFinalState_events_batchOnly (env : Env) (ff : Bool)
    (reqs : List CreateSceneItemRequest) :
    ∀ e ∈ (pipelineFinalState env ff reqs).events,
      ∃ d rt ops, e = Ev.batchSubmit d rt ops := by
  unfold pipelineFinalState
  apply runLayers_events_batchOnly
  intro e he
  simp [emptyLoopState] at he

/-! ## Fail-fast stop (C10) -/

/-- C10: with `failFast = true`, when the layer loop broke out with item
errors (`createFailed`, no thrown exception), the operation returns normally
with the accumulated batch errors and scene-item errors and an undefined
scene, and performs neither the commit transition nor the scene-ready
polling nor the camera fit. -/
theorem createSceneAndSceneItems_failFast_stops (env : Env)
    (reqs : List CreateSceneItemRequest) (returnQueued : Bool)
    (hh : (pipelineFinalState env true reqs).halted = false)
    (hcf : (pipelineFinalState env true reqs).createFailed = true) :
    (createSceneAndSceneItems env reqs true returnQueued).result =
      some { errors := (pipelineFinalState env true reqs).resultBatchErrors
             queued := if returnQueued then
                 (pipelineFinalState env true reqs).resultQueuedOps
               else []
             scene := none
             sceneItemErrors := (pipelineFinalState env true reqs).resultItemErrors } ∧
      Ev.commitScene ∉ (createSceneAndSceneItems env reqs true returnQueued).events ∧
      Ev.pollSceneReady ∉ (createSceneAndSceneItems env reqs true returnQueued).events ∧
      Ev.fitCamera ∉ (createSceneAndSceneItems env reqs true returnQueued).events := by
  have hbatch := pipelineFinalState_events_batchOnly env true reqs
  have hrun : createSceneAndSceneItems env reqs true returnQueued =
      { events := (pipelineFinalState env true reqs).events
        result := some
          { errors := (pipelineFinalState env true reqs).resultBatchErrors
            queued := if returnQueued then
                (pipelineFinalState env true reqs).resultQueuedOps
              else []
            scene := none
            sceneItemErrors := (pipelineFinalState env true reqs).resultItemErrors } } := by
    simp only [createSceneAndSceneItems, hh, hcf]
    simp
  rw [hrun]
  refine ⟨rfl, ?_, ?_, ?_⟩ <;>
    · intro hmem
      rcases hbatch _ hmem with ⟨d, rt, ops, heq⟩
      simp at heq

/-- C10 witness: a single accepted batch resolving with one per-operation
`NotFound` error under `failFast` skips commit, scene-ready polling and
camera fit, and returns the error with an undefined scene. -/
theorem createSceneAndSceneItems_failFast_stops_witness :
    (createSceneAndSceneItems env10 reqs10 true false).result =
      some { errors := (pipelineFinalState env10 true reqs10).resultBatchErrors
             queued := if false then
                 (pipelineFinalState env10 true reqs10).resultQueuedOps
               else []
             scene := none
             sceneItemErrors := (pipelineFinalState env10 true reqs10).resultItemErrors } ∧
      Ev.commitScene ∉ (createSceneAndSceneItems env10 reqs10 true false).events ∧
      Ev.pollSceneReady ∉ (createSceneAndSceneItems env10 reqs10 true false).events ∧
      Ev.fitCamera ∉ (createSceneAndSceneItems env10 reqs10 true false).events :=
  createSceneAndSceneItems_failFast_stops env10 reqs10 false (by decide) (by decide)

/-! ## All-rejected layer (C2) -/

theorem submitChunks_all_rejected (env : Env) (ff : Bool) :
    ∀ (chunks : List (List BatchOperation)) (n : Nat),
      (∀ i, i < chunks.length →
        ∃ r, interpretSubmit ff (env.submit (n + i)) = some r ∧
          isQueuedJobOnRes r = false) →
      ((submitChunks env ff chunks n).any fun p => p.2.isNone) = false ∧
        ∀ x ∈ (submitChunks env ff chunks n).filterMap
            (fun p => p.2.map fun r => ({ ops := p.1, res := r } : QueuedBatchOps)),
          isQueuedJobOnRes x.res = false := by
  intro chunks
  induction chunks with
  | nil => intro n _; exact ⟨rfl, by simp [submitChunks]⟩
  | cons c rest ih =>
    intro n hrej
    rcases hrej 0 (by simp) with ⟨r, hsome, hfalse⟩
    rw [Nat.add_zero] at hsome
    have ihrest := ih (n + 1) (fun i hi => by
      rcases hrej (i + 1) (by simp; omega) with ⟨r', h1, h2⟩
      exact ⟨r', by rw [← h1]; ring_nf, h2⟩)
    constructor
    · simp only [submitChunks, List.any_cons, hsome]
      rw [ihrest.1]
      simp
    · simp only [submitChunks, List.filterMap_cons, hsome, Option.map_some']
      intro x hx
      rcases List.mem_cons.mp hx with rfl | hx
      · exact hfalse
      · exact ihrest.2 x hx

theorem createSceneItemBatch_all_rejected (env : Env) (ff : Bool) (sid : String)
    (reqs : List CreateSceneItemRequest) (nS nP : Nat)
    (hrej : ∀ i, i < (arrayChunked (sceneItemOps sid reqs) 500).length →
      ∃ r, interpretSubmit ff (env.submit (nS + i)) = some r ∧
        isQueuedJobOnRes r = false) :
    createSceneItemBatch env ff sid reqs nS nP =
      { batchOps := []
        batchErrors := (createSceneItems env ff sid reqs nS).queuedBatchOps
        itemErrors := []
        itemResults := []
        submitted := arrayChunked (sceneItemOps sid reqs) 500
        nSub := nS + (arrayChunked (sceneItemOps sid reqs) 500).length
        nPoll := nP
        threw := false } := by
  rcases submitChunks_all_rejected env ff (arrayChunked (sceneItemOps sid reqs) 500)
    nS hrej with ⟨hthrew, hall⟩
  have hqbo : (createSceneItems env ff sid reqs nS).queuedBatchOps =
      (submitChunks env ff (arrayChunked (sceneItemOps sid reqs) 500) nS).filterMap
        (fun p => p.2.map fun r => ({ ops := p.1, res := r } : QueuedBatchOps)) := rfl
  have hct : (createSceneItems env ff sid reqs nS).threw = false := hthrew
  have hfa : (partition (createSceneItems env ff sid reqs nS).queuedBatchOps
      (fun i => isQueuedJobOnRes i.res)).a = [] := by
    rw [partition_a, List.filter_eq_nil_iff]
    intro x hx
    rw [hqbo] at hx
    simp [hall x hx]
  have hfb : (partition (createSceneItems env ff sid reqs nS).queuedBatchOps
      (fun i => isQueuedJobOnRes i.res)).b =
      (createSceneItems env ff sid reqs nS).queuedBatchOps := by
    rw [partition_b, List.filter_eq_self]
    intro x hx
    rw [hqbo] at hx
    simp [hall x hx]
  show (if (createSceneItems env ff sid reqs nS).threw then _ else _) = _
  rw [if_neg (by rw [hct]; exact Bool.false_ne_true)]
  show (if _ then _ else _) = _
  rw [if_pos (by rw [hfa]; simp)]
  rw [hfa, hfb]
  rfl

/-- C2 (amended): when every batch submitted for a layer is rejected (none
accepted as a `QueuedJob`), only the layer helper returns early: its
rejections are appended to the batch errors, no batch of the layer is
polled, no item errors arise, and neither the break flag nor the thrown
flag is set — so the pipeline proceeds to later layers and (absent other
failures) the commit sequence, regardless of `failFast`; the operation is
not aborted. -/
theorem layerStep_all_rejected (env : Env) (ff : Bool) (depth : Nat)
    (layer : List CreateSceneItemRequest) (s : LoopState)
    (hh : s.halted = false) (hcf : s.createFailed = false)
    (hrej : ∀ i, i <
        (arrayChunked (sceneItemOps env.createdScene.data.id layer) 500).length →
      ∃ r, interpretSubmit ff (env.submit (s.nSub + i)) = some r ∧
        isQueuedJobOnRes r = false) :
    (layerStep env ff depth layer s).halted = false ∧
      (layerStep env ff depth layer s).createFailed = false ∧
      (layerStep env ff depth layer s).resultItemErrors = s.resultItemErrors ∧
      (layerStep env ff depth layer s).resultQueuedOps = s.resultQueuedOps ∧
      (layerStep env ff depth layer s).resultBatchErrors =
        s.resultBatchErrors ++
          (createSceneItems env ff env.createdScene.data.id layer s.nSub).queuedBatchOps ∧
      (layerStep env ff depth layer s).nPoll = s.nPoll ∧
      (layerStep env ff depth layer s).events =
        s.events ++
          (arrayChunked (sceneItemOps env.createdScene.data.id layer) 500).map
            (Ev.batchSubmit depth false) := by
  have hb := createSceneItemBatch_all_rejected env ff env.createdScene.data.id layer
    s.nSub s.nPoll hrej
  have hguard : (s.halted || s.createFailed) = false := by rw [hh, hcf]; rfl
  simp only [layerStep, hguard, Bool.false_eq_true, if_neg, hb]
  simp
  exact ⟨hh, hcf⟩

/-- C2 witness for the amended claim: a layer whose single batch is rejected
leaves the loop state unbroken with the rejection recorded. -/
theorem layerStep_all_rejected_witness :
    (layerStep env2 false 0 [mkItemReq (some ("a")) none none] emptyLoopState).halted = false ∧
      (layerStep env2 false 0 [mkItemReq (some ("a")) none none] emptyLoopState).createFailed = false ∧
      (layerStep env2 false 0 [mkItemReq (some ("a")) none none] emptyLoopState).resultItemErrors =
        emptyLoopState.resultItemErrors ∧
      (layerStep env2 false 0 [mkItemReq (some ("a")) none none] emptyLoopState).resultQueuedOps =
        emptyLoopState.resultQueuedOps ∧
      (layerStep env2 false 0 [mkItemReq (some ("a")) none none] emptyLoopState).resultBatchErrors =
        emptyLoopState.resultBatchErrors ++
          (createSceneItems env2 false env2.createdScene.data.id
            [mkItemReq (some ("a")) none none] emptyLoopState.nSub).queuedBatchOps ∧
      (layerStep env2 false 0 [mkItemReq (some ("a")) none none] emptyLoopState).nPoll =
        emptyLoopState.nPoll ∧
      (layerStep env2 false 0 [mkItemReq (some ("a")) none none] emptyLoopState).events =
        emptyLoopState.events ++
          (arrayChunked (sceneItemOps env2.createdScene.data.id
              [mkItemReq (some ("a")) none none]) 500).map (Ev.batchSubmit 0 false) :=
  layerStep_all_rejected env2 false 0 [mkItemReq (some ("a")) none none] emptyLoopState
    rfl rfl
    (by
      intro i hi
      have hlen : (arrayChunked (sceneItemOps env2.createdScene.data.id
          [mkItemReq (some ("a")) none none]) 500).length = 1 := by decide
      rw [hlen] at hi
      have hz : i = 0 := by omega
      subst hz
      exact ⟨some (FailureOrJob.failure rejectFailure), by decide, by decide⟩)

/-- C2 counterexample: with the depth-0 batch of a two-layer forest wholly
rejected, the run still submits a depth-1 batch, still transitions the scene
to commit, and still returns a defined scene — the operation does not abort
early. -/
theorem createSceneAndSceneItems_all_rejected_counterexample :
    ((createSceneAndSceneItems env2 reqs2 false false).events.filter fun e =>
        match e with
        | Ev.batchSubmit 1 _ _ => true
        | _ => false).length = 1 ∧
      Ev.commitScene ∈ (createSceneAndSceneItems env2 reqs2 false false).events ∧
      ((createSceneAndSceneItems env2 reqs2 false false).result.bind
        fun r => r.scene).isSome = true ∧
      ((createSceneAndSceneItems env2 reqs2 false false).result.map
        fun r => r.errors.length) = some 1 := by
  decide

/-! ## Placeholder retry (C6) -/

theorem isParentNotFoundError_not_part (o : Option ItemErrorRes)
    (h : isParentNotFoundError o = true) : isPartNotFoundError o = false := by
  cases o with
  | none => simp [isParentNotFoundError] at h
  | some ier =>
    cases ier with
    | api a =>
      simp only [isParentNotFoundError, Bool.and_eq_true, beq_iff_eq] at h
      have hne : (some SceneItemErrorSourcePointerParent ==
          some SceneItemErrorSourcePointerSourcePart) = false := by decide
      simp only [isPartNotFoundError, h.2, hne, Bool.and_false]
    | failure f => simp [isParentNotFoundError] at h
    | queuedJob j => simp [isParentNotFoundError] at h

theorem placeholder_source_none (item : CreateSceneItemRequestData) :
    (placeholderRequest item).data.attributes.source = none := rfl

theorem placeholder_rel_source_none (item : CreateSceneItemRequestData) :
    (placeholderRequest item).data.relationships.source = none := rfl

theorem placeholder_geometry_set (item : CreateSceneItemRequestData)
    (rel : Relationship) (h1 : item.relationships.source = some rel)
    (h2 : rel.data.type = ("geometry-set")) :
    mapGet (placeholderRequest item).data.attributes.metadata
        SceneItemSystemMetadataMissingGeometrySetId =
      some (some { type := ("string"), value := rel.data.id }) := by
  simp only [placeholderRequest]
  rw [mapGet_set_ne _ _ _ _ (by decide), mapGet_set_ne _ _ _ _ (by decide),
    mapGet_set_ne _ _ _ _ (by decide), mapGet_set_self]
  simp [toMetadataOrUndefined, sourceRelTypeIs, h1, h2]

theorem placeholder_part_revision (item : CreateSceneItemRequestData)
    (rel : Relationship) (h1 : item.relationships.source = some rel)
    (h2 : rel.data.type = ("part-revision")) :
    mapGet (placeholderRequest item).data.attributes.metadata
        SceneItemSystemMetadataMissingPartRevisionId =
      some (some { type := ("string"), value := rel.data.id }) := by
  simp only [placeholderRequest]
  rw [mapGet_set_ne _ _ _ _ (by decide), mapGet_set_ne _ _ _ _ (by decide),
    mapGet_set_self]
  simp [toMetadataOrUndefined, sourceRelTypeIs, h1, h2]

/-- C6: when a layer produces item errors and `failFast` is off, the
pipeline issues exactly one placeholder-creation retry request, at the same
depth and before anything later, for each item error that is a `NotFound`
with the source-relationship pointer, and none for any other error (in
particular none for a `NotFound` on the parent pointer); every retry request
has its source attribute and source relationship removed and carries the
system metadata flags recording the missing source. -/
theorem layerStep_placeholder_retry (env : Env) (depth : Nat)
    (layer : List CreateSceneItemRequest) (s : LoopState)
    (hh : s.halted = false) (hcf : s.createFailed = false)
    (hthrew : (createSceneItemBatch env false env.createdScene.data.id layer
      s.nSub s.nPoll).threw = false)
    (hpn : (createSceneItemBatch env false env.createdScene.data.id layer
        s.nSub s.nPoll).itemErrors.filter
        (fun v => isPartNotFoundError v.res) ≠ []) :
    ((layerStep env false depth layer s).events =
      s.events ++
        ((createSceneItemBatch env false env.createdScene.data.id layer
          s.nSub s.nPoll).submitted).map (Ev.batchSubmit depth false) ++
        ((arrayChunked (sceneItemOps env.createdScene.data.id
          (((createSceneItemBatch env false env.createdScene.data.id layer
              s.nSub s.nPoll).itemErrors.filter
              (fun v => isPartNotFoundError v.res)).map
            (fun itemError => placeholderRequest itemError.req))) 500).map
          (Ev.batchSubmit depth true))) ∧
      ((arrayChunked (sceneItemOps env.createdScene.data.id
          (((createSceneItemBatch env false env.createdScene.data.id layer
              s.nSub s.nPoll).itemErrors.filter
              (fun v => isPartNotFoundError v.res)).map
            (fun itemError => placeholderRequest itemError.req))) 500).flatten =
        ((createSceneItemBatch env false env.createdScene.data.id layer
            s.nSub s.nPoll).itemErrors.filter
            (fun v => isPartNotFoundError v.res)).map
          (fun e => ({ data := (placeholderRequest e.req).data
                       op := ("add")
                       ref := { type := ("scene"), id := env.createdScene.data.id } } :
              BatchOperation))) ∧
      (∀ e ∈ (createSceneItemBatch env false env.createdScene.data.id layer
          s.nSub s.nPoll).itemErrors,
        isParentNotFoundError e.res = true → isPartNotFoundError e.res = false) ∧
      (∀ e ∈ (createSceneItemBatch env false env.createdScene.data.id layer
            s.nSub s.nPoll).itemErrors.filter (fun v => isPartNotFoundError v.res),
        (placeholderRequest e.req).data.attributes.source = none ∧
          (placeholderRequest e.req).data.relationships.source = none ∧
          mapGet (placeholderRequest e.req).data.attributes.metadata
              SceneItemSystemMetadataIsMissingGeometry =
            some (some { type := ("string"), value := ("1") }) ∧
          (∀ rel, e.req.relationships.source = some rel →
            rel.data.type = ("geometry-set") →
            mapGet (placeholderRequest e.req).data.attributes.metadata
                SceneItemSystemMetadataMissingGeometrySetId =
              some (some { type := ("string"), value := rel.data.id })) ∧
          (∀ rel, e.req.relationships.source = some rel →
            rel.data.type = ("part-revision") →
            mapGet (placeholderRequest e.req).data.attributes.metadata
                SceneItemSystemMetadataMissingPartRevisionId =
              some (some { type := ("string"), value := rel.data.id }))) := by
  refine ⟨?_, ?_, ?_, ?_⟩
  · have hguard : (s.halted || s.createFailed) = false := by rw [hh, hcf]; rfl
    have hie : (createSceneItemBatch env false env.createdScene.data.id layer
        s.nSub s.nPoll).itemErrors ≠ [] := by
      intro hz
      rw [hz] at hpn
      exact hpn rfl
    have hre : (((createSceneItemBatch env false env.createdScene.data.id layer
        s.nSub s.nPoll).itemErrors.filter (fun v => isPartNotFoundError v.res)).map
        (fun itemError => placeholderRequest itemError.req)) ≠ [] := by
      intro hz
      exact hpn (List.map_eq_nil_iff.mp hz)
    simp only [layerStep, hguard, Bool.false_eq_true, if_neg, hthrew,
      List.isEmpty_iff, hie, if_false, hre]
    split <;> simp [createSceneItemBatch_submitted, List.append_assoc]
  · rw [arrayChunked_flatten _ 500 (by norm_num)]
    unfold sceneItemOps
    rw [List.map_map]
    rfl
  · intro e _ h
    exact isParentNotFoundError_not_part e.res h
  · intro e _
    refine ⟨placeholder_source_none e.req, placeholder_rel_source_none e.req,
      placeholder_metadata_flag e.req, ?_, ?_⟩
    · intro rel h1 h2
      exact placeholder_geometry_set e.req rel h1 h2
    · intro rel h1 h2
      exact placeholder_part_revision e.req rel h1 h2

/-- C6 witness: one part-not-found error and one parent-pointer error in a
resolved layer batch produce exactly one placeholder retry request. -/
theorem layerStep_placeholder_retry_witness :
    ((layerStep env6 false 0 layer6 emptyLoopState).events =
      emptyLoopState.events ++
        ((createSceneItemBatch env6 false env6.createdScene.data.id layer6
          emptyLoopState.nSub emptyLoopState.nPoll).submitted).map (Ev.batchSubmit 0 false) ++
        ((arrayChunked (sceneItemOps env6.createdScene.data.id
          (((createSceneItemBatch env6 false env6.createdScene.data.id layer6
              emptyLoopState.nSub emptyLoopState.nPoll).itemErrors.filter
              (fun v => isPartNotFoundError v.res)).map
            (fun itemError => placeholderRequest itemError.req))) 500).map
          (Ev.batchSubmit 0 true))) ∧
      ((arrayChunked (sceneItemOps env6.createdScene.data.id
          (((createSceneItemBatch env6 false env6.createdScene.data.id layer6
              emptyLoopState.nSub emptyLoopState.nPoll).itemErrors.filter
              (fun v => isPartNotFoundError v.res)).map
            (fun itemError => placeholderRequest itemError.req))) 500).flatten =
        ((createSceneItemBatch env6 false env6.createdScene.data.id layer6
            emptyLoopState.nSub emptyLoopState.nPoll).itemErrors.filter
            (fun v => isPartNotFoundError v.res)).map
          (fun e => ({ data := (placeholderRequest e.req).data
                       op := ("add")
                       ref := { type := ("scene"), id := env6.createdScene.data.id } } :
              BatchOperation))) ∧
      (∀ e ∈ (createSceneItemBatch env6 false env6.createdScene.data.id layer6
          emptyLoopState.nSub emptyLoopState.nPoll).itemErrors,
        isParentNotFoundError e.res = true → isPartNotFoundError e.res = false) ∧
      (∀ e ∈ (createSceneItemBatch env6 false env6.createdScene.data.id layer6
            emptyLoopState.nSub emptyLoopState.nPoll).itemErrors.filter (fun v => isPartNotFoundError v.res),
        (placeholderRequest e.req).data.attributes.source = none ∧
          (placeholderRequest e.req).data.relationships.source = none ∧
          mapGet (placeholderRequest e.req).data.attributes.metadata
              SceneItemSystemMetadataIsMissingGeometry =
            some (some { type := ("string"), value := ("1") }) ∧
          (∀ rel, e.req.relationships.source = some rel →
            rel.data.type = ("geometry-set") →
            mapGet (placeholderRequest e.req).data.attributes.metadata
                SceneItemSystemMetadataMissingGeometrySetId =
              some (some { type := ("string"), value := rel.data.id })) ∧
          (∀ rel, e.req.relationships.source = some rel →
            rel.data.type = ("part-revision") →
            mapGet (placeholderRequest e.req).data.attributes.metadata
                SceneItemSystemMetadataMissingPartRevisionId =
              some (some { type := ("string"), value := rel.data.id }))) :=
  layerStep_placeholder_retry env6 0 layer6 emptyLoopState rfl rfl (by decide)
    (by decide)

/-! ## Depth stratification of the layer pipeline (C5) -/

theorem reqParentKey_setOrdinal (r : CreateSceneItemRequest) (n : Nat) :
    reqParentKey (setOrdinal r n) = reqParentKey r := rfl

theorem mapGet_delete_self {β : Type} (m : List (String × β)) (k : String) :
    mapGet (mapDelete m k) k = none := by
  induction m with
  | nil => rfl
  | cons hd tl ih =>
    simp only [mapDelete, List.filter_cons]
    by_cases h : hd.1 = k
    · simp only [h, beq_self_eq_true, Bool.not_true]
      simpa [mapDelete] using ih
    · have hb : (hd.1 == k) = false := beq_eq_false_iff_ne.mpr h
      simp only [hb, Bool.not_false, if_pos]
      simp only [mapGet, if_neg h]
      simpa [mapDelete] using ih

theorem mapGet_delete_ne {β : Type} (m : List (String × β)) (k k' : String)
    (h : k' ≠ k) : mapGet (mapDelete m k) k' = mapGet m k' := by
  induction m with
  | nil => rfl
  | cons hd tl ih =>
    simp only [mapDelete, List.filter_cons]
    by_cases hk : hd.1 = k
    · have hk' : hd.1 ≠ k' := fun hh => h (hh.symm.trans hk)
      simp only [hk, beq_self_eq_true, Bool.not_true]
      rw [show mapGet (hd :: tl) k' = mapGet tl k' from by simp [mapGet, if_neg hk']]
      simpa [mapDelete] using ih
    · have hb : (hd.1 == k) = false := beq_eq_false_iff_ne.mpr hk
      simp only [hb, Bool.not_false, if_pos]
      by_cases hk' : hd.1 = k'
      · simp [mapGet, hk']
      · simp only [mapGet, if_neg hk']
        simpa [mapDelete] using ih

theorem mapGet_delete_sub {β : Type} (m : List (String × β)) (k k' : String)
    (l : β) (h : mapGet (mapDelete m k) k' = some l) : mapGet m k' = some l := by
  by_cases hk : k' = k
  · subst hk
    rw [mapGet_delete_self] at h
    cases h
  · rwa [mapGet_delete_ne m k k' hk] at h

theorem pairwise_of_all {α : Type} {R : α → α → Prop} :
    ∀ (l : List α), (∀ a ∈ l, ∀ b ∈ l, R a b) → l.Pairwise R := by
  intro l
  induction l with
  | nil => intro _; exact List.Pairwise.nil
  | cons a tl ih =>
    intro h
    refine List.Pairwise.cons (fun b hb => h a (List.mem_cons_self a tl) b (List.mem_cons_of_mem a hb)) ?_
    exact ih fun x hx y hy =>
      h x (List.mem_cons_of_mem a hx) y (List.mem_cons_of_mem a hy)

theorem pairwise_get?_rel {α : Type} {R : α → α → Prop} :
    ∀ (l : List α), l.Pairwise R → ∀ (i j : Nat) (a b : α), i < j →
      l.get? i = some a → l.get? j = some b → R a b := by
  intro l
  induction l with
  | nil => intro _ i j a b _ ha; cases ha
  | cons hd tl ih =>
    intro hpw i j a b hij ha hb
    rcases List.pairwise_cons.mp hpw with ⟨hhd, htl⟩
    cases i with
    | zero =>
      cases j with
      | zero => cases hij
      | succ j =>
        have ha' : hd = a := by simpa using ha
        subst ha'
        exact hhd b (List.get?_mem (by simpa using hb))
    | succ i =>
      cases j with
      | zero => omega
      | succ j =>
        exact ih htl i j a b (by omega) (by simpa using ha) (by simpa using hb)

/-- Grouping invariant of the ordinal-assignment pass: the final parent map
holds, under each key, exactly the prior entry followed by the processed
requests whose parent key matches. -/
theorem processReqs_mapGet :
    ∀ (reqs : List CreateSceneItemRequest) (m : ReqMap) (k : String),
      mapGet ((processReqs reqs m).2) k =
        match mapGet m k with
        | some l =>
          some (l ++ ((processReqs reqs m).1.filter fun r => reqParentKey r == k))
        | none =>
          if ((processReqs reqs m).1.filter fun r => reqParentKey r == k).isEmpty
          then none
          else some ((processReqs reqs m).1.filter fun r => reqParentKey r == k) := by
  intro reqs
  induction reqs with
  | nil =>
    intro m k
    cases hm : mapGet m k <;> simp [processReqs, hm]
  | cons req rest ih =>
    intro m k
    have hkey : ∀ n : Nat, reqParentKey (if req.data.attributes.ordinal = none
        then setOrdinal req n else req) = reqParentKey req := by
      intro n; split <;> simp [reqParentKey_setOrdinal]
    simp only [processReqs]
    by_cases hk : reqParentKey req = k
    · subst hk
      rw [ih]
      rw [mapGet_set_self]
      cases hm : mapGet m (reqParentKey req) with
      | none => simp [hm, List.filter_cons, hkey]
      | some l => simp [hm, List.filter_cons, hkey, List.append_assoc]
    · rw [ih]
      rw [mapGet_set_ne _ _ _ _ (fun hh => hk hh.symm)]
      have hb : ∀ n : Nat, (reqParentKey (if req.data.attributes.ordinal = none
          then setOrdinal req n else req) == k) = false := by
        intro n; rw [hkey]; exact beq_eq_false_iff_ne.mpr hk
      cases hm : mapGet m k <;> simp [hm, List.filter_cons, hb]

/-- Every sibling list of the final parent map consists of processed
requests keyed by their own parent key. -/
theorem mapSub_m0 (reqs : List CreateSceneItemRequest) :
    MapSub ((processReqs reqs []).2) (assignedReqs reqs) := by
  intro k l hl x hx
  have h := processReqs_mapGet reqs [] k
  rw [hl] at h
  simp only [mapGet] at h
  split at h
  · cases h
  · have hlf : l = ((processReqs reqs []).1.filter fun r => reqParentKey r == k) :=
      by injection h
    rw [hlf] at hx
    rcases List.mem_filter.mp hx with ⟨hmem, hkey⟩
    exact ⟨hmem, by simpa using hkey⟩

theorem mapSub_delete (m : ReqMap) (A : List CreateSceneItemRequest) (k : String)
    (h : MapSub m A) : MapSub (mapDelete m k) A := by
  intro k2 l hl x hx
  exact h k2 l (mapGet_delete_sub m k k2 l hl) x hx

/-- Every request pulled into the next layer is a processed request whose
parent key is the `suppliedId` of some request of the current layer. -/
theorem childStep_mem (A : List CreateSceneItemRequest) :
    ∀ (L : List CreateSceneItemRequest) (m : ReqMap), MapSub m A →
      ∀ x ∈ (childStep L m).1, ∃ p ∈ L, ∃ s,
        p.data.attributes.suppliedId = some s ∧ x ∈ A ∧ reqParentKey x = s := by
  intro L
  induction L with
  | nil => intro m _ x hx; simp [childStep] at hx
  | cons req rest ih =>
    intro m hm x hx
    cases hsid : req.data.attributes.suppliedId with
    | none =>
      simp only [childStep, hsid] at hx
      rcases ih m hm x hx with ⟨p, hp, s, hps, hxA, hxk⟩
      exact ⟨p, List.mem_cons_of_mem req hp, s, hps, hxA, hxk⟩
    | some s =>
      simp only [childStep, hsid] at hx
      by_cases hg : (!(s == "") && (mapGet m s).isSome) = true
      · rw [if_pos hg] at hx
        rcases List.mem_append.mp hx with hx1 | hx1
        · rcases Option.isSome_iff_exists.mp (Bool.and_elim_right hg) with ⟨l, hl⟩
          rw [hl] at hx1
          rcases hm s l hl x (by simpa using hx1) with ⟨hxA, hxk⟩
          exact ⟨req, List.mem_cons_self req rest, s, hsid, hxA, hxk⟩
        · rcases ih (mapDelete m s) (mapSub_delete m A s hm) x hx1 with
            ⟨p, hp, s2, hps, hxA, hxk⟩
          exact ⟨p, List.mem_cons_of_mem req hp, s2, hps, hxA, hxk⟩
      · rw [if_neg hg] at hx
        rcases ih m hm x hx with ⟨p, hp, s2, hps, hxA, hxk⟩
        exact ⟨p, List.mem_cons_of_mem req hp, s2, hps, hxA, hxk⟩

/-- The layer-pulling step only deletes keys, so the map invariant persists. -/
theorem childStep_mapSub (A : List CreateSceneItemRequest) :
    ∀ (L : List CreateSceneItemRequest) (m : ReqMap), MapSub m A →
      MapSub (childStep L m).2 A := by
  intro L
  induction L with
  | nil => intro m hm; exact hm
  | cons req rest ih =>
    intro m hm
    cases hsid : req.data.attributes.suppliedId with
    | none =>
      simp only [childStep, hsid]
      exact ih m hm
    | some s =>
      simp only [childStep, hsid]
      by_cases hg : (!(s == "") && (mapGet m s).isSome) = true
      · rw [if_pos hg]
        exact ih (mapDelete m s) (mapSub_delete m A s hm)
      · rw [if_neg hg]
        exact ih m hm

/-- Soundness of the depth sort: starting from a layer of depth-`d` requests
and a sibling map of processed requests, the layer the sort places at index
`t` holds only requests of forest depth `d + t`. -/
theorem depthSortGo_sound (A : List CreateSceneItemRequest) :
    ∀ (fuel : Nat) (L : List CreateSceneItemRequest) (m : ReqMap) (d : Nat),
      (∀ x ∈ L, HasDepth A x d) → MapSub m A →
      ∀ (t : Nat) (LL : List CreateSceneItemRequest),
        ((depthSortGo fuel L m).1).get? t = some LL →
        ∀ x ∈ LL, HasDepth A x (d + t) := by
  intro fuel
  induction fuel with
  | zero => intro L m d _ _ t LL h; simp [depthSortGo] at h
  | succ fuel ih =>
    intro L m d hL hm t LL h
    simp only [depthSortGo] at h
    by_cases he : L.isEmpty
    · rw [if_pos he] at h
      simp at h
    · rw [if_neg he] at h
      cases t with
      | zero =>
        have hLL : L = LL := by simpa using h
        subst hLL
        intro x hx
        simpa using hL x hx
      | succ t =>
        have h2 : ((depthSortGo fuel (childStep L m).1 (childStep L m).2).1).get? t =
            some LL := by simpa using h
        have hnext : ∀ x ∈ (childStep L m).1, HasDepth A x (d + 1) := by
          intro x hx
          rcases childStep_mem A L m hm x hx with ⟨p, hp, s, hps, hxA, hxk⟩
          exact HasDepth.child x p d s hxA (hL p hp) hps hxk
        have hres := ih (childStep L m).1 (childStep L m).2 (d + 1) hnext
          (childStep_mapSub A L m hm) t LL h2
        intro x hx
        have harith : d + (t + 1) = (d + 1) + t := by omega
        rw [harith]
        exact hres x hx

/-- Stratification: the layer the pipeline set-up places at index `t` holds
only requests of forest depth `t` over the processed request list. -/
theorem pipelineLayers_sound (reqs : List CreateSceneItemRequest) (t : Nat)
    (LL : List CreateSceneItemRequest)
    (h : ((pipelineSetup reqs).1).get? t = some LL) :
    ∀ x ∈ LL, HasDepth (assignedReqs reqs) x t := by
  have hroot : ∀ x ∈ (mapGet ((processReqs reqs []).2) "").getD [],
      HasDepth (assignedReqs reqs) x 0 := by
    cases hm : mapGet ((processReqs reqs []).2) "" with
    | none => simp
    | some l =>
      intro x hx
      rcases mapSub_m0 reqs "" l hm x (by simpa using hx) with ⟨hxA, hxk⟩
      exact HasDepth.root x hxA hxk
  have hsub : MapSub (mapDelete ((processReqs reqs []).2) "") (assignedReqs reqs) :=
    mapSub_delete _ _ _ (mapSub_m0 reqs)
  simp only [pipelineSetup, depthSortedItems] at h
  have hres := depthSortGo_sound (assignedReqs reqs)
    ((mapDelete ((processReqs reqs []).2) "").length + 2)
    ((mapGet ((processReqs reqs []).2) "").getD [])
    (mapDelete ((processReqs reqs []).2) "") 0 hroot hsub t LL h
  intro x hx
  simpa using hres x hx

/-- In a list whose `filterMap f` image has no duplicates, two members
mapped by `f` to the same value are equal. -/
theorem nodup_filterMap_inj {α β : Type} (f : α → Option β) :
    ∀ (l : List α), (l.filterMap f).Nodup →
      ∀ p ∈ l, ∀ q ∈ l, ∀ s, f p = some s → f q = some s → p = q := by
  intro l
  induction l with
  | nil => intro _ p hp; cases hp
  | cons a rest ih =>
    intro hnd p hp q hq s hfp hfq
    cases hfa : f a with
    | none =>
      have hnd2 : (rest.filterMap f).Nodup := by
        simpa [List.filterMap_cons, hfa] using hnd
      have hp2 : p ∈ rest := by
        rcases List.mem_cons.mp hp with rfl | h
        · rw [hfa] at hfp; cases hfp
        · exact h
      have hq2 : q ∈ rest := by
        rcases List.mem_cons.mp hq with rfl | h
        · rw [hfa] at hfq; cases hfq
        · exact h
      exact ih hnd2 p hp2 q hq2 s hfp hfq
    | some v =>
      have hnd2 : v ∉ rest.filterMap f ∧ (rest.filterMap f).Nodup := by
        simpa [List.filterMap_cons, hfa, List.nodup_cons] using hnd
      rcases List.mem_cons.mp hp with rfl | hp2 <;>
        rcases List.mem_cons.mp hq with rfl | hq2
      · rfl
      · exfalso
        have hv : v = s := by rw [hfa] at hfp; injection hfp
        exact hnd2.1 (List.mem_filterMap.mpr ⟨q, hq2, by rw [hfq, hv]⟩)
      · exfalso
        have hv : v = s := by rw [hfa] at hfq; injection hfq
        exact hnd2.1 (List.mem_filterMap.mpr ⟨p, hp2, by rw [hfp, hv]⟩)
      · exact ih hnd2.2 p hp2 q hq2 s hfp hfq

/-- A request with a forest depth is a member of the request list. -/
theorem hasDepth_mem {A : List CreateSceneItemRequest}
    {x : CreateSceneItemRequest} {d : Nat} (h : HasDepth A x d) : x ∈ A := by
  cases h with
  | root _ hr _ => exact hr
  | child _ p _ s hr _ _ _ => exact hr

/-- In a well-formed forest (distinct supplied ids, no empty supplied id),
the forest depth of a request is unique. -/
theorem hasDepth_unique (A : List CreateSceneItemRequest)
    (hnd : (A.filterMap fun r => r.data.attributes.suppliedId).Nodup)
    (hne : ∀ r ∈ A, r.data.attributes.suppliedId ≠ some (""))
    {x : CreateSceneItemRequest} {d : Nat} (h1 : HasDepth A x d) :
    ∀ d2 : Nat, HasDepth A x d2 → d = d2 := by
  induction h1 with
  | root r hr hk =>
    intro d2 h2
    cases h2 with
    | root => rfl
    | child _ p _ s _ hp hsid hkey =>
      exfalso
      have hs : s = "" := by rw [← hkey, hk]
      exact hne p (hasDepth_mem hp) (hs ▸ hsid)
  | child r p dp s hr hp hsid hkey ih =>
    intro d2 h2
    cases h2 with
    | root _ _ hk2 =>
      exfalso
      have hs : s = "" := by rw [← hkey, hk2]
      exact hne p (hasDepth_mem hp) (hs ▸ hsid)
    | child _ q dq s2 _ hq hsid2 hkey2 =>
      have hs : s = s2 := by rw [← hkey, hkey2]
      have hpq : p = q := nodup_filterMap_inj _ A hnd p (hasDepth_mem hp) q
        (hasDepth_mem hq) s hsid (by rw [hsid2, hs])
      have hd := ih dq (hpq ▸ hq)
      rw [hd]

/-- Event invariant of the depth loop: starting at depth `d0` on the layers
dropped up to `d0`, with prior events well-tagged below `d0` and in
non-decreasing tag order, every final event is a well-formed batch
submission and the final events are in non-decreasing tag order. -/
theorem runLayers_events_ok (env : Env) (ff : Bool)
    (layersAll : List (List CreateSceneItemRequest)) :
    ∀ (remaining : List (List CreateSceneItemRequest)) (d0 : Nat) (s : LoopState),
      remaining = layersAll.drop d0 →
      (∀ e ∈ s.events, EvOk layersAll e ∧ TagLt d0 e) →
      s.events.Pairwise TagLe →
      (∀ e ∈ (runLayers env ff remaining d0 s).events, EvOk layersAll e) ∧
      (runLayers env ff remaining d0 s).events.Pairwise TagLe := by
  intro remaining
  induction remaining with
  | nil =>
    intro d0 s _ hok hpw
    exact ⟨fun e he => (hok e he).1, hpw⟩
  | cons layer rest ih =>
    intro d0 s hdrop hok hpw
    have h0 : (layersAll.drop d0).get? 0 = some layer := by rw [← hdrop]; rfl
    have hget : layersAll.get? d0 = some layer := by
      rw [List.get?_drop] at h0
      simpa using h0
    have hrest : rest = layersAll.drop (d0 + 1) := by
      have ht := congrArg List.tail hdrop
      rw [List.tail_drop] at ht
      simpa using ht
    rcases layerStep_events env ff d0 layer s with ⟨new, hev, hshape⟩
    simp only [runLayers]
    apply ih (d0 + 1) (layerStep env ff d0 layer s) hrest
    · rw [hev]
      intro e he
      rcases List.mem_append.mp he with h | h
      · rcases hok e h with ⟨h1, h2⟩
        exact ⟨h1, fun t rt ops heq => Nat.lt_succ_of_lt (h2 t rt ops heq)⟩
      · rcases hshape e h with ⟨rt, ops, heq, hmain, hretry⟩
        refine ⟨⟨d0, rt, ops, heq, ?_, hretry⟩, ?_⟩
        · intro hrt op hop
          exact ⟨layer, hget, hmain hrt op hop⟩
        · intro t rt2 ops2 heq2
          have hinj : Ev.batchSubmit d0 rt ops = Ev.batchSubmit t rt2 ops2 :=
            heq ▸ heq2
          injection hinj with hd _ _
          omega
    · rw [hev, List.pairwise_append]
      refine ⟨hpw, ?_, ?_⟩
      · apply pairwise_of_all
        intro a ha b hb
        rcases hshape a ha with ⟨rta, opsa, heqa, _, _⟩
        rcases hshape b hb with ⟨rtb, opsb, heqb, _, _⟩
        intro t rt ops t2 rt2 ops2 h1 h2
        have hinj1 : Ev.batchSubmit d0 rta opsa = Ev.batchSubmit t rt ops :=
          heqa ▸ h1
        have hinj2 : Ev.batchSubmit d0 rtb opsb = Ev.batchSubmit t2 rt2 ops2 :=
          heqb ▸ h2
        injection hinj1 with hd1 _ _
        injection hinj2 with hd2 _ _
        omega
      · intro a ha b hb
        rcases hok a ha with ⟨_, hlt⟩
        rcases hshape b hb with ⟨rtb, opsb, heqb, _, _⟩
        intro t rt ops t2 rt2 ops2 h1 h2
        have hta := hlt t rt ops h1
        have hinj2 : Ev.batchSubmit d0 rtb opsb = Ev.batchSubmit t2 rt2 ops2 :=
          heqb ▸ h2
        injection hinj2 with hd2 _ _
        omega

/-- The final loop state of the pipeline has only well-formed batch
submission events, in non-decreasing depth-tag order. -/
theorem pipelineFinalState_events_ok (env : Env) (ff : Bool)
    (reqs : List CreateSceneItemRequest) :
    (∀ e ∈ (pipelineFinalState env ff reqs).events, EvOk (pipelineSetup reqs).1 e) ∧
    (pipelineFinalState env ff reqs).events.Pairwise TagLe := by
  unfold pipelineFinalState
  apply runLayers_events_ok env ff (pipelineSetup reqs).1 (pipelineSetup reqs).1 0
  · exact (List.drop_zero _).symm
  · intro e he
    simp at he
  · exact List.Pairwise.nil

/-- A batch submission found by index in an event list extended by
non-submission events is at the same index of the original list. -/
theorem get?_append_batch (l tail : List Ev) (i t : Nat) (rt : Bool)
    (ops : List BatchOperation)
    (htail : ∀ e ∈ tail, ∀ (t2 : Nat) (rt2 : Bool) (ops2 : List BatchOperation),
      e ≠ Ev.batchSubmit t2 rt2 ops2)
    (h : (l ++ tail).get? i = some (Ev.batchSubmit t rt ops)) :
    l.get? i = some (Ev.batchSubmit t rt ops) := by
  rcases Nat.lt_or_ge i l.length with hi | hi
  · rwa [List.get?_append hi] at h
  · exfalso
    rw [List.get?_append_right hi] at h
    exact htail _ (List.get?_mem h) t rt ops rfl

/-- A batch submission in the events of `createSceneAndSceneItems` comes
from the layer loop (the commit / poll / camera-fit events that may follow
are not batch submissions). -/
theorem createScene_events_batch_get? (env : Env)
    (reqs : List CreateSceneItemRequest) (ff rq : Bool) (i t : Nat) (rt : Bool)
    (ops : List BatchOperation)
    (h : (createSceneAndSceneItems env reqs ff rq).events.get? i =
      some (Ev.batchSubmit t rt ops)) :
    (pipelineFinalState env ff reqs).events.get? i =
      some (Ev.batchSubmit t rt ops) := by
  simp only [createSceneAndSceneItems] at h
  split at h
  · exact h
  · split at h
    · exact h
    · split at h
      · exact get?_append_batch _ _ i t rt ops
          (by intro e he t2 rt2 ops2
              simp only [List.mem_cons, List.not_mem_nil, or_false] at he
              rcases he with rfl | rfl <;> simp) h
      · have h3 : ((pipelineFinalState env ff reqs).events ++
            [Ev.commitScene, Ev.pollSceneReady, Ev.fitCamera]).get? i =
            some (Ev.batchSubmit t rt ops) := by
          simpa [List.append_assoc] using h
        exact get?_append_batch _ _ i t rt ops
          (by intro e he t2 rt2 ops2
              simp only [List.mem_cons, List.not_mem_nil, or_false] at he
              rcases he with rfl | rfl | rfl <;> simp) h3

/-- C5: depth ordering of batch submissions. For a well-formed forest of
scene-item requests (pairwise-distinct supplied ids after ordinal
assignment, no empty-string supplied id, and no input request already
carrying the missing-geometry placeholder flag), in every execution of
`createSceneAndSceneItems` the recorded submission order never places a
batch containing a depth-`(d+1)` item before a batch containing a
depth-`d` item: whenever the event at index `i` is a batch submission one
of whose operations carries a request of forest depth `d + 1` and the event
at index `j` is a batch submission one of whose operations carries a
request of forest depth `d`, then `j < i` — so every depth-`d` batch is
submitted before any depth-`(d+1)` batch. -/
theorem createSceneAndSceneItems_depth_order (env : Env)
    (reqs : List CreateSceneItemRequest) (ff rq : Bool)
    (hnd : ((assignedReqs reqs).filterMap
      fun r => r.data.attributes.suppliedId).Nodup)
    (hne : ∀ r ∈ assignedReqs reqs, r.data.attributes.suppliedId ≠ some (""))
    (hflag : ∀ r ∈ assignedReqs reqs,
      mapGet r.data.attributes.metadata SceneItemSystemMetadataIsMissingGeometry = none)
    (d i j ti tj : Nat) (rti rtj : Bool) (opsi opsj : List BatchOperation)
    (x y : BatchOperation)
    (hi : (createSceneAndSceneItems env reqs ff rq).events.get? i =
      some (Ev.batchSubmit ti rti opsi))
    (hj : (createSceneAndSceneItems env reqs ff rq).events.get? j =
      some (Ev.batchSubmit tj rtj opsj))
    (hx : x ∈ opsi) (hy : y ∈ opsj)
    (hdx : HasDepth (assignedReqs reqs) (reqOfOp x) (d + 1))
    (hdy : HasDepth (assignedReqs reqs) (reqOfOp y) d) :
    j < i := by
  have hi2 := createScene_events_batch_get? env reqs ff rq i ti rti opsi hi
  have hj2 := createScene_events_batch_get? env reqs ff rq j tj rtj opsj hj
  rcases pipelineFinalState_events_ok env ff reqs with ⟨hok, hpw⟩
  have tagEq : ∀ (k t2 : Nat) (rt2 : Bool) (ops2 : List BatchOperation)
      (z : BatchOperation) (dd : Nat),
      (pipelineFinalState env ff reqs).events.get? k =
        some (Ev.batchSubmit t2 rt2 ops2) →
      z ∈ ops2 → HasDepth (assignedReqs reqs) (reqOfOp z) dd → t2 = dd := by
    intro k t2 rt2 ops2 z dd hk hz hdz
    rcases hok _ (List.get?_mem hk) with ⟨t3, rt3, ops3, heq, hmain, hretry⟩
    injection heq with h1 h2 h3
    subst h1; subst h2; subst h3
    cases rt2 with
    | false =>
      rcases hmain rfl z hz with ⟨L, hL, hzL⟩
      exact hasDepth_unique _ hnd hne (pipelineLayers_sound reqs t2 L hL _ hzL) dd hdz
    | true =>
      exfalso
      have hflagz := hretry rfl z hz
      have hzero := hflag _ (hasDepth_mem hdz)
      simp only [reqOfOp] at hzero
      rw [hzero] at hflagz
      cases hflagz
  have hti : ti = d + 1 := tagEq i ti rti opsi x (d + 1) hi2 hx hdx
  have htj : tj = d := tagEq j tj rtj opsj y d hj2 hy hdy
  rcases Nat.lt_trichotomy i j with hij | hij | hij
  · exfalso
    have hrel := pairwise_get?_rel _ hpw i j _ _ hij hi2 hj2
    have := hrel ti rti opsi tj rtj opsj rfl rfl
    omega
  · exfalso
    rw [hij, hj2] at hi2
    injection hi2 with hev
    injection hev with h1 _ _
    omega
  · exact hij

/-- C5 witness: in the two-layer run, the depth-0 root batch (event 0) is
submitted before the depth-1 child batch (event 1). -/
theorem createSceneAndSceneItems_depth_order_witness :
    (((assignedReqs reqs2).filterMap
      fun r => r.data.attributes.suppliedId).Nodup) ∧
    evsW.get? 1 = some (Ev.batchSubmit 1 false (opsW 1)) ∧
    evsW.get? 0 = some (Ev.batchSubmit 0 false (opsW 0)) ∧
    (opsW 1).getD 0 dummyOpW ∈ opsW 1 ∧
    (opsW 0).getD 0 dummyOpW ∈ opsW 0 ∧
    (0 : Nat) < 1 :=
  ⟨by decide, by decide, by decide, by decide, by decide,
    createSceneAndSceneItems_depth_order env2 reqs2 false true
      (by decide) (by decide) (by decide)
      0 1 0 1 0 false false (opsW 1) (opsW 0)
      ((opsW 1).getD 0 dummyOpW) ((opsW 0).getD 0 dummyOpW)
      (by decide) (by decide) (by decide) (by decide)
      (HasDepth.child _ (reqOfOp ((opsW 0).getD 0 dummyOpW)) 0 ("a")
        (by decide)
        (HasDepth.root _ (by decide) (by decide))
        (by decide) (by decide))
      (HasDepth.root _ (by decide) (by decide))⟩

end VertexClient
